import Mathlib

/-!
Magnum `Platform::NaClApplication`: flag state machine

Shallow embedding of `src/Platform/NaClApplication.cpp`.  The session is a
record of its flags, its viewport size and the ordered log of everything it
sent out: requests to the host objects (`fullscreen`, `graphics`, mouse lock)
and invocations of the user hooks.  Each member function becomes a function on
that record; what the host answers is passed in through `Host`.
-/

namespace Magnum.Platform

/-- Two-component integer vector (`Vector2i`); only built and compared here. -/
structure Vector2i where
  x : Int
  y : Int
deriving DecidableEq, Repr

/-- Modelled from the spec: the `Flag` enumeration of `NaClApplication.h`, which
is not among the sources.  The six names are the ones the `.cpp` file uses. -/
inductive Flag where
  | ViewportUpdated
  | SwapInProgress
  | Redraw
  | FullscreenSwitchInProgress
  | WillBeFullscreen
  | MouseLocked
deriving DecidableEq, Repr

/-- Modelled from the spec: the `Flags` set of `NaClApplication.h` ("bitset,
independent boolean facts about session state"), one bit per `Flag`. -/
structure Flags where
  ViewportUpdated : Bool
  SwapInProgress : Bool
  Redraw : Bool
  FullscreenSwitchInProgress : Bool
  WillBeFullscreen : Bool
  MouseLocked : Bool
deriving DecidableEq, Repr

/-- The default-constructed (empty) flag set. -/
def Flags.empty : Flags := ⟨false, false, false, false, false, false⟩

/-- Truth value of `flags & f`. -/
def Flags.has (fl : Flags) : Flag → Bool
  | .ViewportUpdated => fl.ViewportUpdated
  | .SwapInProgress => fl.SwapInProgress
  | .Redraw => fl.Redraw
  | .FullscreenSwitchInProgress => fl.FullscreenSwitchInProgress
  | .WillBeFullscreen => fl.WillBeFullscreen
  | .MouseLocked => fl.MouseLocked

/-- The set after `flags |= f`. -/
def Flags.set (fl : Flags) : Flag → Flags
  | .ViewportUpdated => { fl with ViewportUpdated := true }
  | .SwapInProgress => { fl with SwapInProgress := true }
  | .Redraw => { fl with Redraw := true }
  | .FullscreenSwitchInProgress => { fl with FullscreenSwitchInProgress := true }
  | .WillBeFullscreen => { fl with WillBeFullscreen := true }
  | .MouseLocked => { fl with MouseLocked := true }

/-- The set after `flags &= ~f`. -/
def Flags.clear (fl : Flags) : Flag → Flags
  | .ViewportUpdated => { fl with ViewportUpdated := false }
  | .SwapInProgress => { fl with SwapInProgress := false }
  | .Redraw => { fl with Redraw := false }
  | .FullscreenSwitchInProgress => { fl with FullscreenSwitchInProgress := false }
  | .WillBeFullscreen => { fl with WillBeFullscreen := false }
  | .MouseLocked => { fl with MouseLocked := false }

/-- Event record handed to `keyPressEvent` / `keyReleaseEvent`. -/
structure KeyEvent where
  key : Int
  modifiers : Int
deriving DecidableEq, Repr

/-- Event record handed to `mousePressEvent` / `mouseReleaseEvent`. -/
structure MouseEvent where
  button : Int
  position : Vector2i
  modifiers : Int
deriving DecidableEq, Repr

/-- Event record handed to `mouseMoveEvent`. -/
structure MouseMoveEvent where
  position : Vector2i
  relativePosition : Vector2i
  modifiers : Int
deriving DecidableEq, Repr

/-- Everything the session sends out, in program order: the requests to the
host (capitalised like the host methods) and the user hooks it invokes. -/
inductive Call where
  | SetFullscreen (enabled : Bool)
  | ResizeBuffers (width height : Int)
  | SwapBuffers
  | LockMouse
  | UnlockMouse
  | viewportEvent (size : Vector2i)
  | drawEvent
  | keyPressEvent (e : KeyEvent)
  | keyReleaseEvent (e : KeyEvent)
  | mousePressEvent (e : MouseEvent)
  | mouseReleaseEvent (e : MouseEvent)
  | mouseMoveEvent (e : MouseMoveEvent)
deriving DecidableEq, Repr

/-- Whether a logged call is the invocation of a user hook. -/
def Call.isHook : Call → Bool
  | .viewportEvent _ => true
  | .drawEvent => true
  | .keyPressEvent _ => true
  | .keyReleaseEvent _ => true
  | .mousePressEvent _ => true
  | .mouseReleaseEvent _ => true
  | .mouseMoveEvent _ => true
  | _ => false

/-- Whether a logged call is a hook fed from an input event. -/
def Call.isInputHook : Call → Bool
  | .keyPressEvent _ => true
  | .keyReleaseEvent _ => true
  | .mousePressEvent _ => true
  | .mouseReleaseEvent _ => true
  | .mouseMoveEvent _ => true
  | _ => false

/-- What the host answers during one call into the session:
`fullscreen->IsFullscreen()` and `fullscreen->SetFullscreen(enabled)`. -/
structure Host where
  IsFullscreen : Bool
  SetFullscreen : Bool → Bool

/-- The session: `flags`, `viewportSize`, and the log of calls made so far. -/
structure NaClApplication where
  flags : Flags
  viewportSize : Vector2i
  calls : List Call
deriving DecidableEq, Repr

/-- Append one outgoing call to the log. -/
def NaClApplication.call (app : NaClApplication) (c : Call) : NaClApplication :=
  { app with calls := app.calls ++ [c] }

/-- The statement `flags |= f`. -/
def NaClApplication.setFlag (app : NaClApplication) (f : Flag) : NaClApplication :=
  { app with flags := app.flags.set f }

/-- The statement `flags &= ~f`. -/
def NaClApplication.clearFlag (app : NaClApplication) (f : Flag) : NaClApplication :=
  { app with flags := app.flags.clear f }

/-- The configuration object: only its size is read by this file. -/
structure Configuration where
  size : Vector2i
deriving DecidableEq, Repr

/-- Source `Configuration::Configuration()`, line 226: `_size(640, 480)`. -/
def Configuration.default : Configuration := ⟨⟨640, 480⟩⟩

/-- Source `createContext`, lines 43-83.  `graphicsIsNull` and `bindGraphics` are the
host's answers to `graphics->is_null()` and `BindGraphics(*graphics)`; either
failure ends in `std::exit(1)`, here `none`.  The flags start empty (the
default-constructed member) and get `ViewportUpdated`. -/
def createContext (graphicsIsNull bindGraphics : Bool) (configuration : Configuration) :
    Option NaClApplication :=
  if graphicsIsNull then none
  else if !bindGraphics then none
  else some { flags := Flags.empty.set .ViewportUpdated, viewportSize := configuration.size, calls := [] }

/-- Source `isFullscreen`, lines 91-93. -/
def isFullscreen (host : Host) : Bool := host.IsFullscreen

/-- Source `setFullscreen`, lines 95-112.  `(flags & Flag::WillBeFullscreen) == enabled`
compares the truth value of the bit with `enabled`. -/
def setFullscreen (host : Host) (enabled : Bool) (app : NaClApplication) :
    Bool × NaClApplication :=
  if isFullscreen host == enabled ||
      (app.flags.has .FullscreenSwitchInProgress && (app.flags.has .WillBeFullscreen == enabled)) then
    (true, app)
  else if app.flags.has .FullscreenSwitchInProgress && (app.flags.has .WillBeFullscreen != enabled) then
    (false, app)
  else
    let app := app.call (.SetFullscreen enabled)
    if !host.SetFullscreen enabled then (false, app)
    else
      let app := app.setFlag .FullscreenSwitchInProgress
      let app := if enabled then app.setFlag .WillBeFullscreen else app.clearFlag .WillBeFullscreen
      (true, app)

/-- Source `swapBuffers`, lines 193-200. -/
def swapBuffers (app : NaClApplication) : NaClApplication :=
  if app.flags.has .SwapInProgress then app
  else (app.setFlag .SwapInProgress).call .SwapBuffers

/-- Modelled from the spec: `redraw()`, declared inline in `NaClApplication.h`
(not among the sources); it raises the `Redraw` request. -/
def redraw (app : NaClApplication) : NaClApplication :=
  app.setFlag .Redraw

/-- Modelled from the spec: `isMouseLocked()`, declared inline in
`NaClApplication.h`; "`MouseLocked`: pointer capture is currently held". -/
def isMouseLocked (app : NaClApplication) : Bool :=
  app.flags.has .MouseLocked

/-- Source `setMouseLocked`, lines 213-219. -/
def setMouseLocked (enabled : Bool) (app : NaClApplication) : NaClApplication :=
  if enabled == isMouseLocked app then app
  else if enabled then app.call .LockMouse
  else app.call .UnlockMouse

/-- Source `mouseLockCallback`, lines 221-224. -/
def mouseLockCallback (app : NaClApplication) : NaClApplication :=
  app.setFlag .MouseLocked

/-- The body of a user hook.  The hooks are virtual functions written by the
application; `flags` and `viewportSize` are private, so a hook acts on the
session only through the member functions it can call, and none of those
invokes a hook.  A body is therefore a tree of such calls, branching on what
they return.  `setAccepted` / `isAccepted` act on the event record the hook
was handed (no effect in `drawEvent` and `viewportEvent`, which get none). -/
inductive Hook where
  | done
  | isFullscreen (k : Bool → Hook)
  | setFullscreen (enabled : Bool) (k : Bool → Hook)
  | swapBuffers (k : Hook)
  | redraw (k : Hook)
  | isMouseLocked (k : Bool → Hook)
  | setMouseLocked (enabled : Bool) (k : Hook)
  | setAccepted (accepted : Bool) (k : Hook)
  | isAccepted (k : Bool → Hook)

/-- Run a hook body: the session it leaves and the event's accepted bit. -/
def Hook.run (host : Host) : Hook → Bool → NaClApplication → NaClApplication × Bool
  | .done, acc, app => (app, acc)
  | .isFullscreen k, acc, app => (k (Magnum.Platform.isFullscreen host)).run host acc app
  | .setFullscreen enabled k, acc, app =>
      (k (Magnum.Platform.setFullscreen host enabled app).1).run host acc
        (Magnum.Platform.setFullscreen host enabled app).2
  | .swapBuffers k, acc, app => k.run host acc (Magnum.Platform.swapBuffers app)
  | .redraw k, acc, app => k.run host acc (Magnum.Platform.redraw app)
  | .isMouseLocked k, acc, app => (k (Magnum.Platform.isMouseLocked app)).run host acc app
  | .setMouseLocked enabled k, acc, app =>
      k.run host acc (Magnum.Platform.setMouseLocked enabled app)
  | .setAccepted accepted k, _, app => k.run host accepted app
  | .isAccepted k, acc, app => (k acc).run host acc app

/-- The hooks the application overrides. -/
structure Hooks where
  viewportEvent : Vector2i → Hook
  drawEvent : Hook
  keyPressEvent : KeyEvent → Hook
  keyReleaseEvent : KeyEvent → Hook
  mousePressEvent : MouseEvent → Hook
  mouseReleaseEvent : MouseEvent → Hook
  mouseMoveEvent : MouseMoveEvent → Hook

/-- Invoke a hook that gets no event: log the invocation, run the body. -/
def invoke (host : Host) (c : Call) (body : Hook) (app : NaClApplication) : NaClApplication :=
  (body.run host false (app.call c)).1

/-- Modelled from the spec: the event records are declared in
`NaClApplication.h` (not among the sources), with "an accepted flag defaulting
to unaccepted"; so an input hook is run with that bit initially clear: log the
invocation, run the body, report the bit the body leaves. -/
def dispatch (host : Host) (c : Call) (body : Hook) (app : NaClApplication) :
    NaClApplication × Bool :=
  body.run host false (app.call c)

/-- The rectangle of a `pp::View`. -/
structure Rect where
  x : Int
  y : Int
  width : Int
  height : Int
deriving DecidableEq, Repr

/-- The `pp::View` argument of `DidChangeView`. -/
structure View where
  GetRect : Rect
deriving DecidableEq, Repr

/-- Source `DidChangeView`, lines 127-142: what runs once the notification is not
swallowed by a pending fullscreen switch. -/
def DidChangeView.process (host : Host) (hooks : Hooks) (view : View) (app : NaClApplication) :
    NaClApplication :=
  let size : Vector2i := ⟨view.GetRect.width, view.GetRect.height⟩
  let app :=
    if app.viewportSize != size then
      ({ (app.call (.ResizeBuffers size.x size.y)) with viewportSize := size }).setFlag .ViewportUpdated
    else app
  let app :=
    if app.flags.has .ViewportUpdated then
      invoke host (.viewportEvent size) (hooks.viewportEvent size) (app.clearFlag .ViewportUpdated)
    else app
  invoke host .drawEvent hooks.drawEvent app

/-- Source `DidChangeView`, lines 114-143. -/
def DidChangeView (host : Host) (hooks : Hooks) (view : View) (app : NaClApplication) :
    NaClApplication :=
  if app.flags.has .FullscreenSwitchInProgress then
    if isFullscreen host == app.flags.has .WillBeFullscreen then
      DidChangeView.process host hooks view
        ((app.clearFlag .FullscreenSwitchInProgress).setFlag .Redraw)
    else app
  else DidChangeView.process host hooks view app

/-- The `PP_InputEvent_Type` values of the host interface. -/
inductive PP_InputEvent_Type where
  | UNDEFINED
  | MOUSEDOWN
  | MOUSEUP
  | MOUSEMOVE
  | MOUSEENTER
  | MOUSELEAVE
  | WHEEL
  | RAWKEYDOWN
  | KEYDOWN
  | KEYUP
  | CHAR
  | CONTEXTMENU
deriving DecidableEq, Repr

/-- The `pp::InputEvent` argument of `HandleInputEvent`, with the fields the
keyboard and mouse views of it read. -/
structure InputEvent where
  GetType : PP_InputEvent_Type
  GetKeyCode : Int
  GetModifiers : Int
  GetButton : Int
  GetPosition : Vector2i
  GetMovement : Vector2i
deriving DecidableEq, Repr

/-- How `HandleInputEvent` ends: it returns a value, or
`CORRADE_INTERNAL_ASSERT` fails and the process is aborted. -/
inductive Outcome where
  | returned (handled : Bool)
  | assertionFailed
deriving DecidableEq, Repr

/-- Source `HandleInputEvent`, lines 181-190: what runs after the `switch` when the
hook accepted the event. -/
def HandleInputEvent.finish (host : Host) (hooks : Hooks) (tmpFlags : Flags)
    (app : NaClApplication) : Outcome × NaClApplication :=
  if tmpFlags.has .SwapInProgress != app.flags.has .SwapInProgress then
    (.assertionFailed, app)
  else if app.flags.has .Redraw && !app.flags.has .SwapInProgress then
    (.returned true, invoke host .drawEvent hooks.drawEvent (app.clearFlag .Redraw))
  else (.returned true, app)

/-- Source `HandleInputEvent`, lines 152-176: one `case` body after the hook ran. -/
def HandleInputEvent.afterHook (host : Host) (hooks : Hooks) (tmpFlags : Flags)
    (r : NaClApplication × Bool) : Outcome × NaClApplication :=
  if !r.2 then (.returned false, r.1)
  else HandleInputEvent.finish host hooks tmpFlags r.1

/-- Source `HandleInputEvent`, lines 145-191. -/
def HandleInputEvent (host : Host) (hooks : Hooks) (event : InputEvent) (app : NaClApplication) :
    Outcome × NaClApplication :=
  if app.flags.has .FullscreenSwitchInProgress then (.returned false, app)
  else
    let tmpFlags := app.flags
    match event.GetType with
    | .KEYDOWN =>
        let e : KeyEvent := ⟨event.GetKeyCode, event.GetModifiers⟩
        HandleInputEvent.afterHook host hooks tmpFlags
          (dispatch host (.keyPressEvent e) (hooks.keyPressEvent e) app)
    | .KEYUP =>
        let e : KeyEvent := ⟨event.GetKeyCode, event.GetModifiers⟩
        HandleInputEvent.afterHook host hooks tmpFlags
          (dispatch host (.keyReleaseEvent e) (hooks.keyReleaseEvent e) app)
    | .MOUSEDOWN =>
        let e : MouseEvent := ⟨event.GetButton, event.GetPosition, event.GetModifiers⟩
        HandleInputEvent.afterHook host hooks tmpFlags
          (dispatch host (.mousePressEvent e) (hooks.mousePressEvent e) app)
    | .MOUSEUP =>
        let e : MouseEvent := ⟨event.GetButton, event.GetPosition, event.GetModifiers⟩
        HandleInputEvent.afterHook host hooks tmpFlags
          (dispatch host (.mouseReleaseEvent e) (hooks.mouseReleaseEvent e) app)
    | .MOUSEMOVE =>
        let e : MouseMoveEvent := ⟨event.GetPosition, event.GetMovement, event.GetModifiers⟩
        HandleInputEvent.afterHook host hooks tmpFlags
          (dispatch host (.mouseMoveEvent e) (hooks.mouseMoveEvent e) app)
    | _ => (.returned false, app)

/-- Source `swapCallback`, lines 202-211. -/
def swapCallback (host : Host) (hooks : Hooks) (app : NaClApplication) : NaClApplication :=
  let app := app.clearFlag .SwapInProgress
  if app.flags.has .Redraw then
    invoke host .drawEvent hooks.drawEvent (app.clearFlag .Redraw)
  else app

/-- Whether a logged call is one of the host requests a member function
callable from a hook body can send. -/
def Call.fromApi : Call → Bool
  | .SetFullscreen _ => true
  | .SwapBuffers => true
  | .LockMouse => true
  | .UnlockMouse => true
  | _ => false

/-- Number of swap requests in a log that are covered by the flag: 1 when
`SwapInProgress` is set, else 0. -/
def swapFlag (app : NaClApplication) : Nat :=
  if app.flags.has .SwapInProgress then 1 else 0

/-- What the member functions callable from a hook body can do to a session
`a`, taken together: `b` is a session they may leave. -/
structure ApiEffect (a b : NaClApplication) : Prop where
  size_eq : b.viewportSize = a.viewportSize
  log_ext : ∃ l, b.calls = a.calls ++ l ∧ ∀ c ∈ l, c.fromApi = true
  stays_set : ∀ f, f ≠ Flag.WillBeFullscreen → a.flags.has f = true → b.flags.has f = true
  locked_eq : b.flags.has .MouseLocked = a.flags.has .MouseLocked
  updated_eq : b.flags.has .ViewportUpdated = a.flags.has .ViewportUpdated
  swaps : b.calls.count .SwapBuffers + swapFlag a = a.calls.count .SwapBuffers + swapFlag b

/-- A hook body that never calls `redraw()`. -/
def Hook.neverRedraws : Hook → Prop
  | .done => True
  | .isFullscreen k => ∀ b, (k b).neverRedraws
  | .setFullscreen _ k => ∀ b, (k b).neverRedraws
  | .swapBuffers k => k.neverRedraws
  | .redraw _ => False
  | .isMouseLocked k => ∀ b, (k b).neverRedraws
  | .setMouseLocked _ k => k.neverRedraws
  | .setAccepted _ k => k.neverRedraws
  | .isAccepted k => ∀ b, (k b).neverRedraws

/-- No hook of the application ever calls `redraw()`. -/
def Hooks.neverRedraw (hooks : Hooks) : Prop :=
  (∀ s, (hooks.viewportEvent s).neverRedraws) ∧ hooks.drawEvent.neverRedraws ∧
  (∀ e, (hooks.keyPressEvent e).neverRedraws) ∧ (∀ e, (hooks.keyReleaseEvent e).neverRedraws) ∧
  (∀ e, (hooks.mousePressEvent e).neverRedraws) ∧
  (∀ e, (hooks.mouseReleaseEvent e).neverRedraws) ∧
  (∀ e, (hooks.mouseMoveEvent e).neverRedraws)

/-- One notification from the host, with the host's answers and the
application's hooks as they are when it is delivered. -/
inductive Notification where
  | DidChangeView (host : Host) (hooks : Hooks) (view : View)
  | HandleInputEvent (host : Host) (hooks : Hooks) (event : InputEvent)
  | swapCallback (host : Host) (hooks : Hooks)

/-- Whether the notification is a swap completion. -/
def Notification.isSwapCompletion : Notification → Bool
  | .swapCallback _ _ => true
  | _ => false

/-- Whether the notification is a settled view change for the session it
reaches: no fullscreen switch in progress, or the host reporting the target
of the one in progress. -/
def Notification.settles : Notification → NaClApplication → Bool
  | .DidChangeView host _ _, app =>
      !app.flags.has .FullscreenSwitchInProgress ||
        (isFullscreen host == app.flags.has .WillBeFullscreen)
  | _, _ => false

/-- The hooks in force when the notification is delivered. -/
def Notification.hooks : Notification → Hooks
  | .DidChangeView _ hooks _ => hooks
  | .HandleInputEvent _ hooks _ => hooks
  | .swapCallback _ hooks => hooks

/-- Deliver one notification; `none` when the process is aborted by the
failed assertion of `HandleInputEvent`. -/
def Notification.deliver : Notification → NaClApplication → Option NaClApplication
  | .DidChangeView host hooks view, app => some (Magnum.Platform.DidChangeView host hooks view app)
  | .HandleInputEvent host hooks event, app =>
      match Magnum.Platform.HandleInputEvent host hooks event app with
      | (.returned _, app) => some app
      | (.assertionFailed, _) => none
  | .swapCallback host hooks, app => some (Magnum.Platform.swapCallback host hooks app)

/-- Deliver notifications one after the other. -/
def deliverAll : List Notification → NaClApplication → Option NaClApplication
  | [], app => some app
  | n :: ns, app =>
      match n.deliver app with
      | some app => deliverAll ns app
      | none => none

/-- Whether the notification is a view change that settles a fullscreen
switch for the session it reaches (lines 118-121, where `Redraw` is raised). -/
def Notification.settlesSwitch : Notification → NaClApplication → Bool
  | .DidChangeView host _ _, app =>
      app.flags.has .FullscreenSwitchInProgress &&
        (isFullscreen host == app.flags.has .WillBeFullscreen)
  | _, _ => false

/-- Number of settled view changes met while the sequence is delivered. -/
def settledViewChanges : List Notification → NaClApplication → Nat
  | [], _ => 0
  | n :: ns, app =>
      (if n.settles app then 1 else 0) +
        match n.deliver app with
        | some app1 => settledViewChanges ns app1
        | none => 0

/-- No view change in the sequence settles a fullscreen switch when it is
delivered. -/
def noSwitchSettles : List Notification → NaClApplication → Bool
  | [], _ => true
  | n :: ns, app =>
      !n.settlesSwitch app &&
        match n.deliver app with
        | some app1 => noSwitchSettles ns app1
        | none => true

/-- An application that overrides every hook with an empty body. -/
def Hooks.idle : Hooks :=
  ⟨fun _ => .done, .done, fun _ => .done, fun _ => .done, fun _ => .done, fun _ => .done,
    fun _ => .done⟩

/-- The session together with the host's count of swap completions it has
delivered so far. -/
structure Session where
  app : NaClApplication
  swapsCompleted : Nat

/-- Swap requests sent to the host and not yet completed. -/
def Session.outstandingSwaps (s : Session) : Nat :=
  s.app.calls.count .SwapBuffers - s.swapsCompleted

/-- Anything that can happen to a session: a member function called from
outside a hook, or a notification from the host. -/
inductive Step where
  | setFullscreen (host : Host) (enabled : Bool)
  | swapBuffers
  | redraw
  | setMouseLocked (enabled : Bool)
  | mouseLockCallback
  | notify (n : Notification)

/-- One step.  The host delivers a swap completion only for an outstanding
request, and each completion uses one up; `none` when it would not, and when
the process is aborted. -/
def Session.step : Step → Session → Option Session
  | .setFullscreen host enabled, s =>
      some { s with app := (Magnum.Platform.setFullscreen host enabled s.app).2 }
  | .swapBuffers, s => some { s with app := Magnum.Platform.swapBuffers s.app }
  | .redraw, s => some { s with app := Magnum.Platform.redraw s.app }
  | .setMouseLocked enabled, s =>
      some { s with app := Magnum.Platform.setMouseLocked enabled s.app }
  | .mouseLockCallback, s => some { s with app := Magnum.Platform.mouseLockCallback s.app }
  | .notify (.swapCallback host hooks), s =>
      if s.outstandingSwaps = 0 then none
      else some { app := Magnum.Platform.swapCallback host hooks s.app,
                  swapsCompleted := s.swapsCompleted + 1 }
  | .notify (.DidChangeView host hooks view), s =>
      some { s with app := Magnum.Platform.DidChangeView host hooks view s.app }
  | .notify (.HandleInputEvent host hooks event), s =>
      match Magnum.Platform.HandleInputEvent host hooks event s.app with
      | (.returned _, app) => some { s with app := app }
      | (.assertionFailed, _) => none

/-- Run steps one after the other. -/
def Session.run : List Step → Session → Option Session
  | [], s => some s
  | st :: sts, s =>
      match Session.step st s with
      | some s => Session.run sts s
      | none => none

/-- The log has as many swap requests as the host has completed, plus one
when `SwapInProgress` is set. -/
def Session.swapsAccounted (s : Session) : Prop :=
  s.app.calls.count .SwapBuffers = s.swapsCompleted + swapFlag s.app

/-- Between sessions `a` and `b`, the swap requests added to the log match
the change of `SwapInProgress`. -/
def SwapBalance (a b : NaClApplication) : Prop :=
  b.calls.count .SwapBuffers + swapFlag a = a.calls.count .SwapBuffers + swapFlag b

/-- The dispatch table in the specification's words: key-down goes to the
key-press hook, key-up to key-release, mouse-down to mouse-press, mouse-up to
mouse-release, mouse-move to mouse-move, each with the event record built from
the host event; any other type goes nowhere. -/
def dispatchTable (hooks : Hooks) (event : InputEvent) : Option (Call × Hook) :=
  if event.GetType = .KEYDOWN then
    some (.keyPressEvent ⟨event.GetKeyCode, event.GetModifiers⟩,
      hooks.keyPressEvent ⟨event.GetKeyCode, event.GetModifiers⟩)
  else if event.GetType = .KEYUP then
    some (.keyReleaseEvent ⟨event.GetKeyCode, event.GetModifiers⟩,
      hooks.keyReleaseEvent ⟨event.GetKeyCode, event.GetModifiers⟩)
  else if event.GetType = .MOUSEDOWN then
    some (.mousePressEvent ⟨event.GetButton, event.GetPosition, event.GetModifiers⟩,
      hooks.mousePressEvent ⟨event.GetButton, event.GetPosition, event.GetModifiers⟩)
  else if event.GetType = .MOUSEUP then
    some (.mouseReleaseEvent ⟨event.GetButton, event.GetPosition, event.GetModifiers⟩,
      hooks.mouseReleaseEvent ⟨event.GetButton, event.GetPosition, event.GetModifiers⟩)
  else if event.GetType = .MOUSEMOVE then
    some (.mouseMoveEvent ⟨event.GetPosition, event.GetMovement, event.GetModifiers⟩,
      hooks.mouseMoveEvent ⟨event.GetPosition, event.GetMovement, event.GetModifiers⟩)
  else none

/-- A hook body that leaves every flag as it found it, whatever the session
and the host's answers. -/
def Hook.keepsFlags (host : Host) (body : Hook) : Prop :=
  ∀ (acc : Bool) (a : NaClApplication), (body.run host acc a).1.flags = a.flags

/-- Two sessions that are the same except possibly in the `WillBeFullscreen`
bit, and the same there too while a fullscreen switch is in progress. -/
structure AgreeButTarget (a b : NaClApplication) : Prop where
  same_size : a.viewportSize = b.viewportSize
  same_calls : a.calls = b.calls
  same_flags : ∀ f, f ≠ Flag.WillBeFullscreen → a.flags.has f = b.flags.has f
  same_target : a.flags.has .FullscreenSwitchInProgress = true →
    a.flags.has .WillBeFullscreen = b.flags.has .WillBeFullscreen

/-- The session with its `WillBeFullscreen` bit replaced by `w`, all else
the same. -/
def NaClApplication.withTarget (app : NaClApplication) (w : Bool) : NaClApplication :=
  { app with flags := { app.flags with WillBeFullscreen := w } }

/-! ## What hook bodies can and cannot do -/

theorem ApiEffect.refl (a : NaClApplication) : ApiEffect a a :=
  ⟨rfl, ⟨[], by simp, by simp⟩, fun _ _ h => h, rfl, rfl, rfl⟩

theorem ApiEffect.trans {a b c : NaClApplication} (h₁ : ApiEffect a b) (h₂ : ApiEffect b c) :
    ApiEffect a c := by
  obtain ⟨l₁, e₁, m₁⟩ := h₁.log_ext
  obtain ⟨l₂, e₂, m₂⟩ := h₂.log_ext
  refine ⟨h₂.size_eq.trans h₁.size_eq, ⟨l₁ ++ l₂, by rw [e₂, e₁, List.append_assoc], ?_⟩,
    fun f hf h => h₂.stays_set f hf (h₁.stays_set f hf h),
    h₂.locked_eq.trans h₁.locked_eq, h₂.updated_eq.trans h₁.updated_eq, ?_⟩
  · intro c hc
    rcases List.mem_append.mp hc with h | h
    · exact m₁ c h
    · exact m₂ c h
  · have := h₁.swaps
    have := h₂.swaps
    omega

/-- The four ways `setFullscreen` can end. -/
theorem setFullscreen_cases (host : Host) (enabled : Bool) (a : NaClApplication) :
    setFullscreen host enabled a = (true, a) ∨ setFullscreen host enabled a = (false, a) ∨
    setFullscreen host enabled a = (false, a.call (.SetFullscreen enabled)) ∨
    setFullscreen host enabled a =
      (true, { flags := { a.flags with FullscreenSwitchInProgress := true,
                                       WillBeFullscreen := enabled },
               viewportSize := a.viewportSize,
               calls := a.calls ++ [.SetFullscreen enabled] }) := by
  obtain ⟨⟨vu, sip, rd, fsip, wbf, ml⟩, vs, calls⟩ := a
  cases hf : host.IsFullscreen <;> cases hs : host.SetFullscreen enabled <;>
    cases enabled <;> cases fsip <;> cases wbf <;>
    simp [setFullscreen, isFullscreen, hf, Flags.has, Flags.set, Flags.clear,
      NaClApplication.call, NaClApplication.setFlag, NaClApplication.clearFlag] at hs ⊢

theorem setFullscreen_effect (host : Host) (enabled : Bool) (a : NaClApplication) :
    ApiEffect a (setFullscreen host enabled a).2 := by
  rcases setFullscreen_cases host enabled a with h | h | h | h <;> rw [h]
  · exact ApiEffect.refl a
  · exact ApiEffect.refl a
  · refine ⟨rfl, ⟨[.SetFullscreen enabled], rfl, by simp [Call.fromApi]⟩,
      fun _ _ h => h, rfl, rfl, ?_⟩
    simp [NaClApplication.call, swapFlag]
  · refine ⟨rfl, ⟨[.SetFullscreen enabled], rfl, by simp [Call.fromApi]⟩, ?_, rfl, rfl, ?_⟩
    · intro f hf
      cases f <;> simp_all [Flags.has]
    · simp [swapFlag, Flags.has]

theorem swapBuffers_effect (a : NaClApplication) : ApiEffect a (swapBuffers a) := by
  obtain ⟨⟨vu, sip, rd, fsip, wbf, ml⟩, vs, calls⟩ := a
  cases sip
  · refine ⟨?_, ⟨[.SwapBuffers], ?_, ?_⟩, ?_, ?_, ?_, ?_⟩ <;>
      simp [swapBuffers, Flags.has, NaClApplication.call, NaClApplication.setFlag,
        Flags.set, Call.fromApi, swapFlag]
    intro f hf; cases f <;> simp_all [Flags.has]
  · simpa [swapBuffers, Flags.has] using ApiEffect.refl _

theorem redraw_effect (a : NaClApplication) : ApiEffect a (redraw a) := by
  obtain ⟨⟨vu, sip, rd, fsip, wbf, ml⟩, vs, calls⟩ := a
  refine ⟨?_, ⟨[], ?_, ?_⟩, ?_, ?_, ?_, ?_⟩ <;>
    simp [redraw, Flags.has, NaClApplication.setFlag, Flags.set, swapFlag]
  intro f hf; cases f <;> simp_all [Flags.has]

theorem setMouseLocked_effect (enabled : Bool) (a : NaClApplication) :
    ApiEffect a (setMouseLocked enabled a) := by
  by_cases h : (enabled == isMouseLocked a) = true
  · simpa [setMouseLocked, h] using ApiEffect.refl _
  cases enabled
  · refine ⟨?_, ⟨[.UnlockMouse], ?_, ?_⟩, ?_, ?_, ?_, ?_⟩ <;>
      simp_all [setMouseLocked, NaClApplication.call, Call.fromApi, swapFlag]
  · refine ⟨?_, ⟨[.LockMouse], ?_, ?_⟩, ?_, ?_, ?_, ?_⟩ <;>
      simp_all [setMouseLocked, NaClApplication.call, Call.fromApi, swapFlag]

/-- Running any hook body has an `ApiEffect` on the session. -/
theorem Hook.run_effect (host : Host) (h : Hook) :
    ∀ (acc : Bool) (a : NaClApplication), ApiEffect a (h.run host acc a).1 := by
  induction h with
  | done => intro acc a; exact ApiEffect.refl a
  | isFullscreen k ih => intro acc a; exact ih _ acc a
  | setFullscreen enabled k ih =>
      intro acc a
      exact (setFullscreen_effect host enabled a).trans (ih _ acc _)
  | swapBuffers k ih => intro acc a; exact (swapBuffers_effect a).trans (ih acc _)
  | redraw k ih => intro acc a; exact (redraw_effect a).trans (ih acc _)
  | isMouseLocked k ih => intro acc a; exact ih _ acc a
  | setMouseLocked enabled k ih =>
      intro acc a; exact (setMouseLocked_effect enabled a).trans (ih acc _)
  | setAccepted accepted k ih => intro acc a; exact ih accepted a
  | isAccepted k ih => intro acc a; exact ih _ acc a

/-! ## Fullscreen switch -/

/-- C1, as stated, fails: a switch to fullscreen is in progress (target `true`)
while the host still reports windowed; `setFullscreen(false)` meets the first
test (`isFullscreen() == enabled`) and returns `true`. -/
theorem setFullscreen_opposite_counterexample :
    (⟨⟨false, false, false, true, true, false⟩, ⟨640, 480⟩, []⟩ : NaClApplication).flags.has
        .FullscreenSwitchInProgress = true ∧
    (⟨⟨false, false, false, true, true, false⟩, ⟨640, 480⟩, []⟩ : NaClApplication).flags.has
        .WillBeFullscreen = true ∧
    (setFullscreen ⟨false, fun _ => true⟩ (!true)
        ⟨⟨false, false, false, true, true, false⟩, ⟨640, 480⟩, []⟩).1 = true := by
  decide

/-- C1, amended: with a switch to target `t` in progress, `setFullscreen(not t)`
never issues a request and never changes the session; it returns `false`
exactly when the host already reports `t`, and `true` when the host still
reports `not t`. -/
theorem setFullscreen_opposite_in_progress (host : Host) (app : NaClApplication) (t : Bool)
    (hp : app.flags.has .FullscreenSwitchInProgress = true)
    (ht : app.flags.has .WillBeFullscreen = t) :
    (setFullscreen host (!t) app).2 = app ∧
    (host.IsFullscreen = t → (setFullscreen host (!t) app).1 = false) ∧
    (host.IsFullscreen = (!t) → (setFullscreen host (!t) app).1 = true) := by
  subst ht
  cases hf : host.IsFullscreen <;> cases hw : app.flags.has .WillBeFullscreen <;>
    simp [setFullscreen, isFullscreen, hp, hf, hw]

/-- Witness for C1 amended: target `true` in progress, host already fullscreen. -/
theorem setFullscreen_opposite_in_progress_witness :
    (setFullscreen ⟨true, fun _ => true⟩ (!true)
        ⟨⟨false, false, false, true, true, false⟩, ⟨640, 480⟩, []⟩).2 =
      ⟨⟨false, false, false, true, true, false⟩, ⟨640, 480⟩, []⟩ ∧
    (setFullscreen ⟨true, fun _ => true⟩ (!true)
        ⟨⟨false, false, false, true, true, false⟩, ⟨640, 480⟩, []⟩).1 = false :=
  ⟨(setFullscreen_opposite_in_progress ⟨true, fun _ => true⟩
      ⟨⟨false, false, false, true, true, false⟩, ⟨640, 480⟩, []⟩ true rfl rfl).1,
   (setFullscreen_opposite_in_progress ⟨true, fun _ => true⟩
      ⟨⟨false, false, false, true, true, false⟩, ⟨640, 480⟩, []⟩ true rfl rfl).2.1 rfl⟩

/-- C2: when the host already reports `enabled`, or a switch to `enabled` is
in progress, `setFullscreen(enabled)` returns `true` and leaves the whole
session (flags, viewport size, log of requests) as it was; and any call that
returned `true` returns `true` again, changing nothing, when repeated. -/
theorem setFullscreen_already_done (host : Host) (enabled : Bool) (app : NaClApplication) :
    ((host.IsFullscreen = enabled ∨
        (app.flags.has .FullscreenSwitchInProgress = true ∧
          app.flags.has .WillBeFullscreen = enabled)) →
      setFullscreen host enabled app = (true, app)) ∧
    ((setFullscreen host enabled app).1 = true →
      setFullscreen host enabled (setFullscreen host enabled app).2 =
        (true, (setFullscreen host enabled app).2)) := by
  obtain ⟨⟨vu, sip, rd, fsip, wbf, ml⟩, vs, calls⟩ := app
  cases hf : host.IsFullscreen <;> cases hs : host.SetFullscreen enabled <;>
    cases enabled <;> cases fsip <;> cases wbf <;>
    simp [setFullscreen, isFullscreen, hf, Flags.has, Flags.set, Flags.clear,
      NaClApplication.call, NaClApplication.setFlag, NaClApplication.clearFlag] at hs ⊢ <;>
    simp [hs]

/-- Witness for C2: a switch to fullscreen is in progress, host still windowed. -/
theorem setFullscreen_already_done_witness :
    setFullscreen ⟨false, fun _ => true⟩ true
        ⟨⟨false, false, false, true, true, false⟩, ⟨640, 480⟩, []⟩ =
      (true, ⟨⟨false, false, false, true, true, false⟩, ⟨640, 480⟩, []⟩) :=
  (setFullscreen_already_done ⟨false, fun _ => true⟩ true
      ⟨⟨false, false, false, true, true, false⟩, ⟨640, 480⟩, []⟩).1 (Or.inr ⟨rfl, rfl⟩)

/-- C3: whenever `setFullscreen` returns `false`, flags and viewport size are
what they were; in particular when no switch is in progress, the host is not in
the requested state and rejects the request, the call returns `false` having
sent just that one request. -/
theorem setFullscreen_false_keeps_state (host : Host) (enabled : Bool) (app : NaClApplication) :
    ((setFullscreen host enabled app).1 = false →
      (setFullscreen host enabled app).2.flags = app.flags ∧
      (setFullscreen host enabled app).2.viewportSize = app.viewportSize) ∧
    (app.flags.has .FullscreenSwitchInProgress = false → host.IsFullscreen ≠ enabled →
      host.SetFullscreen enabled = false →
      setFullscreen host enabled app = (false, app.call (.SetFullscreen enabled))) := by
  obtain ⟨⟨vu, sip, rd, fsip, wbf, ml⟩, vs, calls⟩ := app
  cases hf : host.IsFullscreen <;> cases hs : host.SetFullscreen enabled <;>
    cases enabled <;> cases fsip <;> cases wbf <;>
    simp [setFullscreen, isFullscreen, hf, Flags.has, Flags.set, Flags.clear,
      NaClApplication.call, NaClApplication.setFlag, NaClApplication.clearFlag] at hs ⊢ <;>
    simp [hs]

/-- Witness for C3: windowed host, no switch in progress, request rejected. -/
theorem setFullscreen_false_keeps_state_witness :
    (setFullscreen ⟨false, fun _ => false⟩ true
        ⟨⟨true, false, true, false, false, true⟩, ⟨640, 480⟩, []⟩).2.flags =
      ⟨true, false, true, false, false, true⟩ ∧
    setFullscreen ⟨false, fun _ => false⟩ true
        ⟨⟨true, false, true, false, false, true⟩, ⟨640, 480⟩, []⟩ =
      (false, ⟨⟨true, false, true, false, false, true⟩, ⟨640, 480⟩, [.SetFullscreen true]⟩) :=
  ⟨((setFullscreen_false_keeps_state ⟨false, fun _ => false⟩ true
      ⟨⟨true, false, true, false, false, true⟩, ⟨640, 480⟩, []⟩).1 (by decide)).1,
   (setFullscreen_false_keeps_state ⟨false, fun _ => false⟩ true
      ⟨⟨true, false, true, false, false, true⟩, ⟨640, 480⟩, []⟩).2 rfl (by decide) rfl⟩

/-- C4: with no switch in progress, the host in the other state and accepting
the request, `setFullscreen(enabled)` returns `true`; the flags become the old
ones with `FullscreenSwitchInProgress` set and `WillBeFullscreen` equal to
`enabled`, the viewport size stays, and the only call sent out is the switch
request (no hook runs). -/
theorem setFullscreen_accepted (host : Host) (enabled : Bool) (app : NaClApplication)
    (hp : app.flags.has .FullscreenSwitchInProgress = false)
    (hh : host.IsFullscreen ≠ enabled)
    (ha : host.SetFullscreen enabled = true) :
    setFullscreen host enabled app =
      (true, { flags := { app.flags with FullscreenSwitchInProgress := true,
                                         WillBeFullscreen := enabled },
               viewportSize := app.viewportSize,
               calls := app.calls ++ [.SetFullscreen enabled] }) := by
  obtain ⟨⟨vu, sip, rd, fsip, wbf, ml⟩, vs, calls⟩ := app
  cases hf : host.IsFullscreen <;> cases enabled <;> cases fsip <;>
    simp_all [setFullscreen, isFullscreen, Flags.has, Flags.set, Flags.clear,
      NaClApplication.call, NaClApplication.setFlag, NaClApplication.clearFlag]

/-- Witness for C4: leaving fullscreen, all other flags set. -/
theorem setFullscreen_accepted_witness :
    setFullscreen ⟨true, fun _ => true⟩ false
        ⟨⟨true, true, true, false, true, true⟩, ⟨800, 600⟩, [.SwapBuffers]⟩ =
      (true, ⟨⟨true, true, true, true, false, true⟩, ⟨800, 600⟩,
        [.SwapBuffers, .SetFullscreen false]⟩) :=
  setFullscreen_accepted ⟨true, fun _ => true⟩ false
    ⟨⟨true, true, true, false, true, true⟩, ⟨800, 600⟩, [.SwapBuffers]⟩ rfl (by decide) rfl

/-! ## View-changed notification while a switch is pending -/

/-- A view change during a pending switch returns the session as it was. -/
theorem DidChangeView_pending_eq (host : Host) (hooks : Hooks) (view : View)
    (app : NaClApplication)
    (hp : app.flags.has .FullscreenSwitchInProgress = true)
    (hh : host.IsFullscreen ≠ app.flags.has .WillBeFullscreen) :
    DidChangeView host hooks view app = app := by
  simp [DidChangeView, isFullscreen, hp, hh]

/-- C5: while a fullscreen switch is in progress and the host does not yet
report the target state, `DidChangeView` returns the session as it was: no
buffer resize, no hook, no flag or viewport-size change. -/
theorem DidChangeView_pending (host : Host) (hooks : Hooks) (view : View)
    (app : NaClApplication)
    (hp : app.flags.has .FullscreenSwitchInProgress = true)
    (hh : host.IsFullscreen ≠ app.flags.has .WillBeFullscreen) :
    DidChangeView host hooks view app = app := by
  simp [DidChangeView, isFullscreen, hp, hh]

/-- Witness for C5: pending switch to fullscreen, a resized rectangle, and
hooks that would each leave a trace in the log. -/
theorem DidChangeView_pending_witness :
    DidChangeView ⟨false, fun _ => true⟩
        ⟨fun _ => .swapBuffers .done, .swapBuffers .done, fun _ => .done, fun _ => .done,
          fun _ => .done, fun _ => .done, fun _ => .done⟩
        ⟨⟨0, 0, 1920, 1080⟩⟩
        ⟨⟨true, false, true, true, true, false⟩, ⟨640, 480⟩, []⟩ =
      ⟨⟨true, false, true, true, true, false⟩, ⟨640, 480⟩, []⟩ :=
  DidChangeView_pending _ _ _ _ rfl (by decide)

/-! ## Input while a switch is pending -/

/-- C10: while `FullscreenSwitchInProgress` is set, `HandleInputEvent` returns
`false` for every event and leaves the session, log included, as it was: no
hook runs, whatever `Redraw` and `SwapInProgress` are. -/
theorem HandleInputEvent_during_switch (host : Host) (hooks : Hooks) (event : InputEvent)
    (app : NaClApplication)
    (hp : app.flags.has .FullscreenSwitchInProgress = true) :
    HandleInputEvent host hooks event app = (.returned false, app) := by
  simp [HandleInputEvent, hp]

/-- Witness for C10: a key press with `Redraw` set and no swap outstanding. -/
theorem HandleInputEvent_during_switch_witness :
    HandleInputEvent ⟨true, fun _ => true⟩
        ⟨fun _ => .done, .done, fun _ => .setAccepted true .done, fun _ => .done,
          fun _ => .done, fun _ => .done, fun _ => .done⟩
        ⟨.KEYDOWN, 65, 0, 0, ⟨0, 0⟩, ⟨0, 0⟩⟩
        ⟨⟨false, false, true, true, true, false⟩, ⟨640, 480⟩, []⟩ =
      (.returned false, ⟨⟨false, false, true, true, true, false⟩, ⟨640, 480⟩, []⟩) :=
  HandleInputEvent_during_switch _ _ _ _ rfl

/-! ## Settled view-changed notification -/

/-- Invoking a hook that gets no event logs the invocation and then only
requests sent by the body. -/
theorem invoke_calls (host : Host) (c : Call) (body : Hook) (app : NaClApplication) :
    ∃ l, (invoke host c body app).calls = app.calls ++ c :: l ∧ ∀ x ∈ l, x.fromApi = true := by
  obtain ⟨l, hl, hm⟩ := (Hook.run_effect host body false (app.call c)).log_ext
  refine ⟨l, ?_, hm⟩
  rw [invoke, hl]
  simp [NaClApplication.call]

theorem fromApi_not_hook {c : Call} (h : c.fromApi = true) : c.isHook = false := by
  cases c <;> simp_all [Call.fromApi, Call.isHook]

theorem fromApi_ne_draw {l : List Call} (h : ∀ x ∈ l, x.fromApi = true) :
    Call.drawEvent ∉ l := by
  intro hd
  simpa [Call.fromApi] using h _ hd

theorem fromApi_filter_hook {l : List Call} (h : ∀ x ∈ l, x.fromApi = true) :
    l.filter Call.isHook = [] := by
  rw [List.filter_eq_nil_iff]
  intro x hx
  simp [fromApi_not_hook (h x hx)]

/-- What lines 127-142 add to the log: a prefix without any draw, then the
draw hook, then only requests sent by the draw hook body. -/
theorem DidChangeView.process_calls (host : Host) (hooks : Hooks) (view : View)
    (app : NaClApplication) :
    ∃ pre post, (DidChangeView.process host hooks view app).calls =
        app.calls ++ pre ++ Call.drawEvent :: post ∧
      Call.drawEvent ∉ pre ∧ ∀ x ∈ post, x.fromApi = true := by
  unfold DidChangeView.process
  simp only []
  split_ifs with c1 c2 c2
  · obtain ⟨l₁, e₁, m₁⟩ := invoke_calls host
      (.viewportEvent ⟨view.GetRect.width, view.GetRect.height⟩)
      (hooks.viewportEvent ⟨view.GetRect.width, view.GetRect.height⟩)
      ((({ (app.call (.ResizeBuffers view.GetRect.width view.GetRect.height)) with
          viewportSize := ⟨view.GetRect.width, view.GetRect.height⟩ } :
          NaClApplication).setFlag .ViewportUpdated).clearFlag .ViewportUpdated)
    obtain ⟨l₂, e₂, m₂⟩ := invoke_calls host .drawEvent hooks.drawEvent _
    refine ⟨Call.ResizeBuffers view.GetRect.width view.GetRect.height ::
      Call.viewportEvent ⟨view.GetRect.width, view.GetRect.height⟩ :: l₁, l₂, ?_, ?_, m₂⟩
    · rw [e₂, e₁]
      simp [NaClApplication.call, NaClApplication.setFlag, NaClApplication.clearFlag]
    · simp [fromApi_ne_draw m₁]
  · obtain ⟨l₂, e₂, m₂⟩ := invoke_calls host .drawEvent hooks.drawEvent _
    refine ⟨[Call.ResizeBuffers view.GetRect.width view.GetRect.height], l₂, ?_, by simp, m₂⟩
    rw [e₂]
    simp [NaClApplication.call, NaClApplication.setFlag]
  · obtain ⟨l₁, e₁, m₁⟩ := invoke_calls host
      (.viewportEvent ⟨view.GetRect.width, view.GetRect.height⟩)
      (hooks.viewportEvent ⟨view.GetRect.width, view.GetRect.height⟩)
      (app.clearFlag .ViewportUpdated)
    obtain ⟨l₂, e₂, m₂⟩ := invoke_calls host .drawEvent hooks.drawEvent _
    refine ⟨Call.viewportEvent ⟨view.GetRect.width, view.GetRect.height⟩ :: l₁, l₂, ?_, ?_, m₂⟩
    · rw [e₂, e₁]
      simp [NaClApplication.clearFlag]
    · simp [fromApi_ne_draw m₁]
  · obtain ⟨l₂, e₂, m₂⟩ := invoke_calls host .drawEvent hooks.drawEvent app
    exact ⟨[], l₂, by rw [e₂]; simp, by simp, m₂⟩

/-- C6: a settled view-changed notification (no switch in progress, or the
host reporting the target of the one in progress) invokes the draw hook
exactly once, and that is its last callback: what follows it in the log are
only requests sent by the draw hook body (no hook, no buffer resize). -/
theorem DidChangeView_settled_draws_once (host : Host) (hooks : Hooks) (view : View)
    (app : NaClApplication)
    (hs : app.flags.has .FullscreenSwitchInProgress = false ∨
      host.IsFullscreen = app.flags.has .WillBeFullscreen) :
    ∃ l post, (DidChangeView host hooks view app).calls = app.calls ++ l ∧
      l.count .drawEvent = 1 ∧
      (l.filter Call.isHook).getLast? = some .drawEvent ∧
      (∃ pre, l = pre ++ Call.drawEvent :: post) ∧
      ∀ x ∈ post, x.fromApi = true := by
  have key : ∀ a : NaClApplication, a.calls = app.calls →
      ∃ l post, (DidChangeView.process host hooks view a).calls = app.calls ++ l ∧
        l.count .drawEvent = 1 ∧
        (l.filter Call.isHook).getLast? = some .drawEvent ∧
        (∃ pre, l = pre ++ Call.drawEvent :: post) ∧
        ∀ x ∈ post, x.fromApi = true := by
    intro a ha
    obtain ⟨pre, post, e, np, hm⟩ := DidChangeView.process_calls host hooks view a
    refine ⟨pre ++ Call.drawEvent :: post, post, by rw [e, ha, List.append_assoc], ?_, ?_,
      ⟨pre, rfl⟩, hm⟩
    · rw [List.count_append, List.count_cons_self, List.count_eq_zero.mpr np,
        List.count_eq_zero.mpr (fromApi_ne_draw hm)]
    · rw [List.filter_append, List.filter_cons_of_pos (by simp [Call.isHook]),
        fromApi_filter_hook hm, List.getLast?_append]
      simp
  unfold DidChangeView
  by_cases hp : app.flags.has .FullscreenSwitchInProgress = true
  · have hh : host.IsFullscreen = app.flags.has .WillBeFullscreen := by
      rcases hs with h | h
      · rw [hp] at h; cases h
      · exact h
    simpa [hp, isFullscreen, hh] using key _ (by simp [NaClApplication.clearFlag,
      NaClApplication.setFlag])
  · simpa [hp] using key app rfl

/-- Witness for C6: a switch to fullscreen settles on a resized view; the
viewport hook and the draw hook both send a swap request. -/
theorem DidChangeView_settled_draws_once_witness :
    ∃ l post, (DidChangeView ⟨true, fun _ => true⟩
        ⟨fun _ => .swapBuffers .done, .swapBuffers .done, fun _ => .done, fun _ => .done,
          fun _ => .done, fun _ => .done, fun _ => .done⟩
        ⟨⟨0, 0, 1920, 1080⟩⟩
        ⟨⟨false, false, false, true, true, false⟩, ⟨640, 480⟩, []⟩).calls = [] ++ l ∧
      l.count .drawEvent = 1 ∧
      (l.filter Call.isHook).getLast? = some .drawEvent ∧
      (∃ pre, l = pre ++ Call.drawEvent :: post) ∧
      ∀ x ∈ post, x.fromApi = true :=
  DidChangeView_settled_draws_once ⟨true, fun _ => true⟩
    ⟨fun _ => .swapBuffers .done, .swapBuffers .done, fun _ => .done, fun _ => .done,
      fun _ => .done, fun _ => .done, fun _ => .done⟩
    ⟨⟨0, 0, 1920, 1080⟩⟩
    ⟨⟨false, false, false, true, true, false⟩, ⟨640, 480⟩, []⟩ (Or.inr rfl)

/-! ## Swap completion -/

theorem count_draw_invoke (host : Host) (body : Hook) (app : NaClApplication) :
    (invoke host .drawEvent body app).calls.count .drawEvent = app.calls.count .drawEvent + 1 := by
  obtain ⟨l, hl, hm⟩ := invoke_calls host .drawEvent body app
  rw [hl, List.count_append, List.count_cons_self, List.count_eq_zero.mpr (fromApi_ne_draw hm)]

theorem invoke_effect (host : Host) (c : Call) (body : Hook) (app : NaClApplication) :
    ApiEffect (app.call c) (invoke host c body app) :=
  Hook.run_effect host body false (app.call c)

/-- With `Redraw` clear, `swapCallback` only clears `SwapInProgress`. -/
theorem swapCallback_of_clear (host : Host) (hooks : Hooks) (app : NaClApplication)
    (hr : app.flags.has .Redraw = false) :
    swapCallback host hooks app =
      { app with flags := { app.flags with SwapInProgress := false } } := by
  obtain ⟨⟨vu, sip, rd, fsip, wbf, ml⟩, vs, calls⟩ := app
  simp only [Flags.has] at hr
  subst hr
  simp [swapCallback, NaClApplication.clearFlag, Flags.clear, Flags.has]

/-- With `Redraw` set, `swapCallback` clears both flags and invokes the draw hook. -/
theorem swapCallback_of_set (host : Host) (hooks : Hooks) (app : NaClApplication)
    (hr : app.flags.has .Redraw = true) :
    swapCallback host hooks app = invoke host .drawEvent hooks.drawEvent
      { app with flags := { app.flags with SwapInProgress := false, Redraw := false } } := by
  obtain ⟨⟨vu, sip, rd, fsip, wbf, ml⟩, vs, calls⟩ := app
  simp only [Flags.has] at hr
  subst hr
  simp [swapCallback, NaClApplication.clearFlag, Flags.clear, Flags.has]

/-- C9: `swapCallback` clears `SwapInProgress`.  With `Redraw` clear that is
all it does (no hook, every other flag, the viewport size and the log as they
were).  With `Redraw` set it clears `Redraw` too and then invokes the draw hook
exactly once: the log grows by that invocation followed only by requests the
hook body sends, and the flags and viewport size the hook body starts from are
the old ones with just these two flags cleared.  The viewport size, `MouseLocked`
and `ViewportUpdated` are the same on return whatever the hook body does. -/
theorem swapCallback_spec (host : Host) (hooks : Hooks) (app : NaClApplication) :
    (app.flags.has .Redraw = false →
      swapCallback host hooks app =
        { app with flags := { app.flags with SwapInProgress := false } }) ∧
    (app.flags.has .Redraw = true →
      swapCallback host hooks app = invoke host .drawEvent hooks.drawEvent
        { app with flags := { app.flags with SwapInProgress := false, Redraw := false } } ∧
      (∃ l, (swapCallback host hooks app).calls = app.calls ++ Call.drawEvent :: l ∧
        ∀ x ∈ l, x.isHook = false) ∧
      (swapCallback host hooks app).calls.count .drawEvent = app.calls.count .drawEvent + 1) ∧
    (swapCallback host hooks app).viewportSize = app.viewportSize ∧
    (swapCallback host hooks app).flags.has .MouseLocked = app.flags.has .MouseLocked ∧
    (swapCallback host hooks app).flags.has .ViewportUpdated =
      app.flags.has .ViewportUpdated := by
  cases hr : app.flags.has .Redraw
  · rw [swapCallback_of_clear host hooks app hr]
    simp [Flags.has]
  · rw [swapCallback_of_set host hooks app hr]
    have eff := invoke_effect host .drawEvent hooks.drawEvent
      { app with flags := { app.flags with SwapInProgress := false, Redraw := false } }
    obtain ⟨l, hl, hm⟩ := invoke_calls host .drawEvent hooks.drawEvent
      { app with flags := { app.flags with SwapInProgress := false, Redraw := false } }
    refine ⟨by simp, fun _ => ⟨rfl, ⟨l, hl, fun x hx => fromApi_not_hook (hm x hx)⟩,
      count_draw_invoke _ _ _⟩, ?_, ?_, ?_⟩
    · simpa [NaClApplication.call] using eff.size_eq
    · simpa [NaClApplication.call, Flags.has] using eff.locked_eq
    · simpa [NaClApplication.call, Flags.has] using eff.updated_eq

/-- Witness for C9: `Redraw` set, the draw hook asks for the next swap. -/
theorem swapCallback_spec_witness :
    swapCallback ⟨false, fun _ => true⟩
        ⟨fun _ => .done, .swapBuffers .done, fun _ => .done, fun _ => .done,
          fun _ => .done, fun _ => .done, fun _ => .done⟩
        ⟨⟨false, true, true, false, false, true⟩, ⟨640, 480⟩, [.SwapBuffers]⟩ =
      invoke ⟨false, fun _ => true⟩ .drawEvent (.swapBuffers .done)
        ⟨⟨false, false, false, false, false, true⟩, ⟨640, 480⟩, [.SwapBuffers]⟩ ∧
    swapCallback ⟨false, fun _ => true⟩
        ⟨fun _ => .done, .swapBuffers .done, fun _ => .done, fun _ => .done,
          fun _ => .done, fun _ => .done, fun _ => .done⟩
        ⟨⟨false, true, false, false, false, true⟩, ⟨640, 480⟩, [.SwapBuffers]⟩ =
      ⟨⟨false, false, false, false, false, true⟩, ⟨640, 480⟩, [.SwapBuffers]⟩ :=
  ⟨((swapCallback_spec ⟨false, fun _ => true⟩
      ⟨fun _ => .done, .swapBuffers .done, fun _ => .done, fun _ => .done,
        fun _ => .done, fun _ => .done, fun _ => .done⟩
      ⟨⟨false, true, true, false, false, true⟩, ⟨640, 480⟩, [.SwapBuffers]⟩).2.1 rfl).1,
   (swapCallback_spec ⟨false, fun _ => true⟩
      ⟨fun _ => .done, .swapBuffers .done, fun _ => .done, fun _ => .done,
        fun _ => .done, fun _ => .done, fun _ => .done⟩
      ⟨⟨false, true, false, false, false, true⟩, ⟨640, 480⟩, [.SwapBuffers]⟩).1 rfl⟩

/-! ## A redraw requested while a swap is outstanding -/

theorem setFullscreen_redraw (host : Host) (enabled : Bool) (a : NaClApplication) :
    (setFullscreen host enabled a).2.flags.has .Redraw = a.flags.has .Redraw := by
  rcases setFullscreen_cases host enabled a with h | h | h | h <;> rw [h] <;> rfl

theorem swapBuffers_redraw (a : NaClApplication) :
    (swapBuffers a).flags.has .Redraw = a.flags.has .Redraw := by
  unfold swapBuffers
  split <;> simp [NaClApplication.call, NaClApplication.setFlag, Flags.set, Flags.has]

theorem setMouseLocked_redraw (enabled : Bool) (a : NaClApplication) :
    (setMouseLocked enabled a).flags.has .Redraw = a.flags.has .Redraw := by
  unfold setMouseLocked
  split_ifs <;> simp [NaClApplication.call]

/-- A hook body that never calls `redraw()` leaves `Redraw` as it found it. -/
theorem Hook.run_neverRedraws (host : Host) (h : Hook) :
    ∀ (acc : Bool) (a : NaClApplication), h.neverRedraws →
      (h.run host acc a).1.flags.has .Redraw = a.flags.has .Redraw := by
  induction h with
  | done => intro acc a _; rfl
  | isFullscreen k ih => intro acc a hn; exact ih _ acc a (hn _)
  | setFullscreen enabled k ih =>
      intro acc a hn
      exact (ih _ acc _ (hn _)).trans (setFullscreen_redraw host enabled a)
  | swapBuffers k ih => intro acc a hn; exact (ih acc _ hn).trans (swapBuffers_redraw a)
  | redraw k _ => intro acc a hn; exact absurd hn (by simp [Hook.neverRedraws])
  | isMouseLocked k ih => intro acc a hn; exact ih _ acc a (hn _)
  | setMouseLocked enabled k ih =>
      intro acc a hn; exact (ih acc _ hn).trans (setMouseLocked_redraw enabled a)
  | setAccepted accepted k ih => intro acc a hn; exact ih accepted a hn
  | isAccepted k ih => intro acc a hn; exact ih _ acc a (hn _)

/-- Source `HandleInputEvent` either returns `false` at once, the session untouched,
or dispatches to exactly one input hook and goes on from what that leaves. -/
theorem HandleInputEvent_cases (host : Host) (hooks : Hooks) (event : InputEvent)
    (app : NaClApplication) :
    HandleInputEvent host hooks event app = (.returned false, app) ∨
    ∃ c body, c.isInputHook = true ∧ (hooks.neverRedraw → body.neverRedraws) ∧
      HandleInputEvent host hooks event app =
        HandleInputEvent.afterHook host hooks app.flags (dispatch host c body app) := by
  unfold HandleInputEvent
  split
  · exact Or.inl rfl
  · simp only []
    split
    · exact Or.inr ⟨.keyPressEvent ⟨event.GetKeyCode, event.GetModifiers⟩, _, rfl,
        fun h => h.2.2.1 _, rfl⟩
    · exact Or.inr ⟨.keyReleaseEvent ⟨event.GetKeyCode, event.GetModifiers⟩, _, rfl,
        fun h => h.2.2.2.1 _, rfl⟩
    · exact Or.inr ⟨.mousePressEvent ⟨event.GetButton, event.GetPosition, event.GetModifiers⟩,
        _, rfl, fun h => h.2.2.2.2.1 _, rfl⟩
    · exact Or.inr ⟨.mouseReleaseEvent ⟨event.GetButton, event.GetPosition, event.GetModifiers⟩,
        _, rfl, fun h => h.2.2.2.2.2.1 _, rfl⟩
    · exact Or.inr ⟨.mouseMoveEvent ⟨event.GetPosition, event.GetMovement, event.GetModifiers⟩,
        _, rfl, fun h => h.2.2.2.2.2.2 _, rfl⟩
    · exact Or.inl rfl

/-- After the hook, with `Redraw` clear: the accepted bit is returned, or the
assertion fails; either way the session is the one the hook left. -/
theorem HandleInputEvent.afterHook_no_redraw (host : Host) (hooks : Hooks) (tmpFlags : Flags)
    (r : NaClApplication × Bool) (hr : r.1.flags.has .Redraw = false) :
    HandleInputEvent.afterHook host hooks tmpFlags r = (.returned r.2, r.1) ∨
    HandleInputEvent.afterHook host hooks tmpFlags r = (.assertionFailed, r.1) := by
  obtain ⟨a, acc⟩ := r
  cases acc
  · simp [HandleInputEvent.afterHook]
  · by_cases h : (tmpFlags.has .SwapInProgress != a.flags.has .SwapInProgress) = true
    · right
      simp only [HandleInputEvent.afterHook, HandleInputEvent.finish, h]
      simp
    · left
      simp only [HandleInputEvent.afterHook, HandleInputEvent.finish, h]
      simp at hr
      simp [hr]

/-- What dispatching to an input hook does to the session. -/
theorem dispatch_effect (host : Host) (c : Call) (body : Hook) (app : NaClApplication) :
    ApiEffect (app.call c) (dispatch host c body app).1 :=
  Hook.run_effect host body false (app.call c)

theorem dispatch_count_draw (host : Host) (c : Call) (body : Hook) (app : NaClApplication)
    (hc : c.isInputHook = true) :
    (dispatch host c body app).1.calls.count .drawEvent = app.calls.count .drawEvent := by
  obtain ⟨l, hl, hm⟩ := (dispatch_effect host c body app).log_ext
  have hne : (c == Call.drawEvent) = false := by
    cases c <;> simp_all [Call.isInputHook]
  rw [hl, List.count_append, List.count_eq_zero.mpr (fromApi_ne_draw hm)]
  simp [NaClApplication.call, List.count_append, List.count_cons, hne]

/-- While `Redraw` and `SwapInProgress` are both set, an input event returns
normally, draws nothing, and leaves both flags set. -/
theorem HandleInputEvent_swap_outstanding (host : Host) (hooks : Hooks) (event : InputEvent)
    (app : NaClApplication) (hr : app.flags.has .Redraw = true)
    (hs : app.flags.has .SwapInProgress = true) :
    ∃ b app1, HandleInputEvent host hooks event app = (.returned b, app1) ∧
      app1.flags.has .Redraw = true ∧ app1.flags.has .SwapInProgress = true ∧
      app1.calls.count .drawEvent = app.calls.count .drawEvent := by
  rcases HandleInputEvent_cases host hooks event app with h | ⟨c, body, hc, _, h⟩
  · exact ⟨false, app, h, hr, hs, rfl⟩
  · have eff := dispatch_effect host c body app
    have hr1 : (dispatch host c body app).1.flags.has .Redraw = true :=
      eff.stays_set _ (by decide) hr
    have hs1 : (dispatch host c body app).1.flags.has .SwapInProgress = true :=
      eff.stays_set _ (by decide) hs
    refine ⟨(dispatch host c body app).2, (dispatch host c body app).1, ?_, hr1, hs1,
      dispatch_count_draw host c body app hc⟩
    rw [h]
    cases hacc : (dispatch host c body app).2 <;>
      simp [HandleInputEvent.afterHook, HandleInputEvent.finish, hacc, hs, hs1]

/-- A view change that is not a settled one leaves the session as it was. -/
theorem DidChangeView_of_not_settles (host : Host) (hooks : Hooks) (view : View)
    (app : NaClApplication)
    (h : (Notification.DidChangeView host hooks view).settles app = false) :
    DidChangeView host hooks view app = app := by
  simp only [Notification.settles, Bool.or_eq_false_iff, Bool.not_eq_false_eq_eq_true] at h
  have h2 : isFullscreen host ≠ app.flags.has .WillBeFullscreen := by
    intro e
    rw [e] at h
    simp at h
  simp [DidChangeView, h.1, h2]

/-- C7, as stated, fails on a view change: with `Redraw` raised while a swap is
outstanding, a settled `DidChangeView` (same geometry, no fullscreen switch)
invokes the draw hook before the swap completes, `Redraw` stays set, and the
completion then draws a second time. -/
theorem redraw_during_swap_counterexample :
    (⟨⟨false, true, true, false, false, false⟩, ⟨640, 480⟩, []⟩ : NaClApplication).flags.has
        .Redraw = true ∧
    (⟨⟨false, true, true, false, false, false⟩, ⟨640, 480⟩, []⟩ : NaClApplication).flags.has
        .SwapInProgress = true ∧
    (DidChangeView ⟨false, fun _ => true⟩ Hooks.idle ⟨⟨0, 0, 640, 480⟩⟩
        ⟨⟨false, true, true, false, false, false⟩, ⟨640, 480⟩, []⟩) =
      ⟨⟨false, true, true, false, false, false⟩, ⟨640, 480⟩, [.drawEvent]⟩ ∧
    (swapCallback ⟨false, fun _ => true⟩ Hooks.idle
        (DidChangeView ⟨false, fun _ => true⟩ Hooks.idle ⟨⟨0, 0, 640, 480⟩⟩
          ⟨⟨false, true, true, false, false, false⟩, ⟨640, 480⟩, []⟩)).calls =
      [.drawEvent, .drawEvent] := by
  decide

/-! ## At most one swap outstanding -/

theorem Flags.has_set_ne (fl : Flags) {f g : Flag} (h : f ≠ g) :
    (fl.set f).has g = fl.has g := by
  cases f <;> cases g <;> first | rfl | exact absurd rfl h

theorem Flags.has_clear_ne (fl : Flags) {f g : Flag} (h : f ≠ g) :
    (fl.clear f).has g = fl.has g := by
  cases f <;> cases g <;> first | rfl | exact absurd rfl h

theorem SwapBalance.same (a : NaClApplication) : SwapBalance a a := rfl

theorem SwapBalance.andThen {a b c : NaClApplication} (h₁ : SwapBalance a b)
    (h₂ : SwapBalance b c) : SwapBalance a c := by
  unfold SwapBalance at *
  omega

theorem SwapBalance.of_same {a b : NaClApplication}
    (h₁ : b.calls.count .SwapBuffers = a.calls.count .SwapBuffers)
    (h₂ : b.flags.has .SwapInProgress = a.flags.has .SwapInProgress) : SwapBalance a b := by
  unfold SwapBalance swapFlag
  rw [h₁, h₂]

theorem SwapBalance.setFlag (a : NaClApplication) {f : Flag} (h : f ≠ Flag.SwapInProgress) :
    SwapBalance a (a.setFlag f) :=
  SwapBalance.of_same rfl (Flags.has_set_ne _ h)

theorem SwapBalance.clearFlag (a : NaClApplication) {f : Flag} (h : f ≠ Flag.SwapInProgress) :
    SwapBalance a (a.clearFlag f) :=
  SwapBalance.of_same rfl (Flags.has_clear_ne _ h)

theorem SwapBalance.call (a : NaClApplication) {c : Call} (h : c ≠ Call.SwapBuffers) :
    SwapBalance a (a.call c) := by
  refine SwapBalance.of_same ?_ rfl
  have : (c == Call.SwapBuffers) = false := by simpa using h
  simp [NaClApplication.call, List.count_append, List.count_cons, this]

theorem SwapBalance.invoke (host : Host) {c : Call} (h : c ≠ Call.SwapBuffers) (body : Hook)
    (a : NaClApplication) : SwapBalance a (invoke host c body a) :=
  (SwapBalance.call a h).andThen (invoke_effect host c body a).swaps

theorem DidChangeView.process_balance (host : Host) (hooks : Hooks) (view : View)
    (a : NaClApplication) : SwapBalance a (DidChangeView.process host hooks view a) := by
  unfold DidChangeView.process
  simp only []
  have hres : SwapBalance a
      (({ (a.call (.ResizeBuffers view.GetRect.width view.GetRect.height)) with
          viewportSize := ⟨view.GetRect.width, view.GetRect.height⟩ } :
          NaClApplication).setFlag .ViewportUpdated) :=
    (@SwapBalance.call a (.ResizeBuffers view.GetRect.width view.GetRect.height) (by simp)).andThen
      (SwapBalance.of_same rfl (by simp [NaClApplication.setFlag, Flags.set, Flags.has]))
  split_ifs with c1 c2 c2
  · exact ((hres.andThen (SwapBalance.clearFlag _ (by decide))).andThen
      (SwapBalance.invoke host (by simp) _ _)).andThen (SwapBalance.invoke host (by simp) _ _)
  · exact hres.andThen (SwapBalance.invoke host (by simp) _ _)
  · exact ((SwapBalance.clearFlag _ (by decide)).andThen
      (SwapBalance.invoke host (by simp) _ _)).andThen (SwapBalance.invoke host (by simp) _ _)
  · exact SwapBalance.invoke host (by simp) _ _

theorem DidChangeView_balance (host : Host) (hooks : Hooks) (view : View)
    (a : NaClApplication) : SwapBalance a (DidChangeView host hooks view a) := by
  unfold DidChangeView
  split_ifs
  · exact ((SwapBalance.clearFlag a (by decide)).andThen (SwapBalance.setFlag _ (by decide))).andThen
      (DidChangeView.process_balance host hooks view _)
  · exact SwapBalance.same a
  · exact DidChangeView.process_balance host hooks view a

theorem HandleInputEvent.afterHook_balance (host : Host) (hooks : Hooks) (tmpFlags : Flags)
    (r : NaClApplication × Bool) :
    SwapBalance r.1 (HandleInputEvent.afterHook host hooks tmpFlags r).2 := by
  unfold HandleInputEvent.afterHook HandleInputEvent.finish
  split_ifs
  · exact SwapBalance.same _
  · exact SwapBalance.same _
  · exact (SwapBalance.clearFlag _ (by decide)).andThen (SwapBalance.invoke host (by simp) _ _)
  · exact SwapBalance.same _

theorem HandleInputEvent_balance (host : Host) (hooks : Hooks) (event : InputEvent)
    (a : NaClApplication) : SwapBalance a (HandleInputEvent host hooks event a).2 := by
  rcases HandleInputEvent_cases host hooks event a with h | ⟨c, body, hc, _, h⟩ <;> rw [h]
  · exact SwapBalance.same a
  · have hne : c ≠ Call.SwapBuffers := by
      intro e
      rw [e] at hc
      simp [Call.isInputHook] at hc
    exact ((SwapBalance.call a hne).andThen (dispatch_effect host c body a).swaps).andThen
      (HandleInputEvent.afterHook_balance host hooks a.flags _)

theorem swapCallback_balance (host : Host) (hooks : Hooks) (a : NaClApplication) :
    SwapBalance (a.clearFlag .SwapInProgress) (swapCallback host hooks a) := by
  unfold swapCallback
  simp only []
  split_ifs
  · exact (SwapBalance.clearFlag _ (by decide)).andThen (SwapBalance.invoke host (by simp) _ _)
  · exact SwapBalance.same _

theorem swapFlag_clear (a : NaClApplication) : swapFlag (a.clearFlag .SwapInProgress) = 0 := by
  simp [swapFlag, NaClApplication.clearFlag, Flags.clear, Flags.has]

theorem swapFlag_le (a : NaClApplication) : swapFlag a ≤ 1 := by
  unfold swapFlag
  split <;> omega

/-- When the swaps are accounted for, a change that keeps the balance keeps
them accounted for. -/
theorem Session.swapsAccounted_of_balance {s : Session} {b : NaClApplication}
    (hs : s.swapsAccounted) (hb : SwapBalance s.app b) :
    Session.swapsAccounted { s with app := b } := by
  unfold Session.swapsAccounted SwapBalance at *
  simp only []
  omega

/-- Every step keeps the swaps accounted for. -/
theorem Session.step_swapsAccounted (st : Step) (s s1 : Session) (hs : s.swapsAccounted)
    (h : Session.step st s = some s1) : s1.swapsAccounted := by
  cases st with
  | setFullscreen host enabled =>
      simp only [Session.step, Option.some.injEq] at h
      rw [← h]
      exact Session.swapsAccounted_of_balance hs (setFullscreen_effect host enabled s.app).swaps
  | swapBuffers =>
      simp only [Session.step, Option.some.injEq] at h
      rw [← h]
      exact Session.swapsAccounted_of_balance hs (swapBuffers_effect s.app).swaps
  | redraw =>
      simp only [Session.step, Option.some.injEq] at h
      rw [← h]
      exact Session.swapsAccounted_of_balance hs (redraw_effect s.app).swaps
  | setMouseLocked enabled =>
      simp only [Session.step, Option.some.injEq] at h
      rw [← h]
      exact Session.swapsAccounted_of_balance hs (setMouseLocked_effect enabled s.app).swaps
  | mouseLockCallback =>
      simp only [Session.step, Option.some.injEq] at h
      rw [← h]
      exact Session.swapsAccounted_of_balance hs (SwapBalance.setFlag s.app (by decide))
  | notify n =>
      cases n with
      | DidChangeView host hooks view =>
          simp only [Session.step, Option.some.injEq] at h
          rw [← h]
          exact Session.swapsAccounted_of_balance hs (DidChangeView_balance host hooks view s.app)
      | HandleInputEvent host hooks event =>
          have hb := HandleInputEvent_balance host hooks event s.app
          simp only [Session.step] at h
          split at h
          · rename_i b a e
            simp only [Option.some.injEq] at h
            rw [← h]
            rw [e] at hb
            exact Session.swapsAccounted_of_balance hs hb
          · simp at h
      | swapCallback host hooks =>
          simp only [Session.step] at h
          split_ifs at h with h0
          simp only [Option.some.injEq] at h
          rw [← h]
          have hb := swapCallback_balance host hooks s.app
          have hc := swapFlag_clear s.app
          have hl := swapFlag_le s.app
          unfold Session.swapsAccounted Session.outstandingSwaps SwapBalance at *
          simp only [NaClApplication.clearFlag] at hb hc
          simp only []
          omega

theorem Session.run_swapsAccounted (steps : List Step) :
    ∀ (s s1 : Session), s.swapsAccounted → Session.run steps s = some s1 →
      s1.swapsAccounted := by
  induction steps with
  | nil =>
      intro s s1 hs h
      simp only [Session.run, Option.some.injEq] at h
      rw [← h]
      exact hs
  | cons st sts ih =>
      intro s s1 hs h
      simp only [Session.run] at h
      cases hst : Session.step st s with
      | none => simp [hst] at h
      | some s2 =>
          simp only [hst] at h
          exact ih s2 s1 (Session.step_swapsAccounted st s s2 hs hst) h

/-- C8: in every state reached from a freshly created session by member
function calls and host notifications (swap completions only for outstanding
requests), at most one swap request is outstanding, and one is outstanding
exactly when `SwapInProgress` is set; there `swapBuffers` changes nothing when
the flag is set, and otherwise sets it and sends exactly one request. -/
theorem swaps_outstanding_at_most_one (graphicsIsNull bindGraphics : Bool)
    (configuration : Configuration) (app0 : NaClApplication)
    (hc : createContext graphicsIsNull bindGraphics configuration = some app0)
    (steps : List Step) (s : Session)
    (hr : Session.run steps ⟨app0, 0⟩ = some s) :
    s.outstandingSwaps ≤ 1 ∧
    (s.outstandingSwaps = 1 ↔ s.app.flags.has .SwapInProgress = true) ∧
    s.swapsCompleted ≤ s.app.calls.count .SwapBuffers ∧
    (s.app.flags.has .SwapInProgress = true → swapBuffers s.app = s.app) ∧
    (s.app.flags.has .SwapInProgress = false →
      swapBuffers s.app =
        { s.app with flags := { s.app.flags with SwapInProgress := true },
                     calls := s.app.calls ++ [.SwapBuffers] } ∧
      Session.outstandingSwaps { s with app := swapBuffers s.app } = 1) := by
  have h0 : Session.swapsAccounted ⟨app0, 0⟩ := by
    unfold createContext at hc
    split_ifs at hc
    simp only [Option.some.injEq] at hc
    rw [← hc]
    simp [Session.swapsAccounted, swapFlag, Flags.empty, Flags.set, Flags.has]
  have hacc := Session.run_swapsAccounted steps _ s h0 hr
  have hb := (swapBuffers_effect s.app).swaps
  unfold Session.swapsAccounted at hacc
  unfold Session.outstandingSwaps
  cases hsip : s.app.flags.has .SwapInProgress
  · have hf : swapFlag s.app = 0 := by simp [swapFlag, hsip]
    have hsw : swapBuffers s.app =
        { s.app with flags := { s.app.flags with SwapInProgress := true },
                     calls := s.app.calls ++ [.SwapBuffers] } := by
      simp [swapBuffers, hsip, NaClApplication.setFlag, NaClApplication.call, Flags.set]
    refine ⟨by omega, by simp; omega, by omega, by simp, fun _ => ⟨hsw, ?_⟩⟩
    rw [hsw]
    simp only [List.count_append, List.count_cons_self, List.count_nil]
    omega
  · have hf : swapFlag s.app = 1 := by simp [swapFlag, hsip]
    refine ⟨by omega, by simp; omega, by omega, fun _ => by simp [swapBuffers, hsip], by simp⟩

/-- Witness for C8: created with the default configuration; the application
swaps twice, the completion arrives with `Redraw` raised and a draw hook that
swaps again, then a view change. -/
theorem swaps_outstanding_at_most_one_witness :
    Session.outstandingSwaps
        ⟨⟨⟨false, true, false, false, false, false⟩, ⟨640, 480⟩,
          [.SwapBuffers, .drawEvent, .SwapBuffers, .viewportEvent ⟨640, 480⟩, .drawEvent]⟩, 1⟩ ≤ 1 ∧
    (Session.outstandingSwaps
        ⟨⟨⟨false, true, false, false, false, false⟩, ⟨640, 480⟩,
          [.SwapBuffers, .drawEvent, .SwapBuffers, .viewportEvent ⟨640, 480⟩, .drawEvent]⟩, 1⟩ = 1 ↔
      (⟨false, true, false, false, false, false⟩ : Flags).has .SwapInProgress = true) :=
  ⟨(swaps_outstanding_at_most_one false true Configuration.default
      ⟨⟨true, false, false, false, false, false⟩, ⟨640, 480⟩, []⟩ rfl
      [.swapBuffers, .swapBuffers, .redraw,
        .notify (.swapCallback ⟨false, fun _ => true⟩
          ⟨fun _ => .done, .swapBuffers .done, fun _ => .done, fun _ => .done,
            fun _ => .done, fun _ => .done, fun _ => .done⟩),
        .notify (.DidChangeView ⟨false, fun _ => true⟩
          ⟨fun _ => .done, .swapBuffers .done, fun _ => .done, fun _ => .done,
            fun _ => .done, fun _ => .done, fun _ => .done⟩ ⟨⟨0, 0, 640, 480⟩⟩)]
      ⟨⟨⟨false, true, false, false, false, false⟩, ⟨640, 480⟩,
        [.SwapBuffers, .drawEvent, .SwapBuffers, .viewportEvent ⟨640, 480⟩, .drawEvent]⟩, 1⟩ rfl).1,
   (swaps_outstanding_at_most_one false true Configuration.default
      ⟨⟨true, false, false, false, false, false⟩, ⟨640, 480⟩, []⟩ rfl
      [.swapBuffers, .swapBuffers, .redraw,
        .notify (.swapCallback ⟨false, fun _ => true⟩
          ⟨fun _ => .done, .swapBuffers .done, fun _ => .done, fun _ => .done,
            fun _ => .done, fun _ => .done, fun _ => .done⟩),
        .notify (.DidChangeView ⟨false, fun _ => true⟩
          ⟨fun _ => .done, .swapBuffers .done, fun _ => .done, fun _ => .done,
            fun _ => .done, fun _ => .done, fun _ => .done⟩ ⟨⟨0, 0, 640, 480⟩⟩)]
      ⟨⟨⟨false, true, false, false, false, false⟩, ⟨640, 480⟩,
        [.SwapBuffers, .drawEvent, .SwapBuffers, .viewportEvent ⟨640, 480⟩, .drawEvent]⟩, 1⟩ rfl).2.1⟩

/-! ## Resize and viewport handling of a settled view change -/

/-- Lines 127-142 when the reported size differs from the stored one. -/
theorem DidChangeView.process_resized (host : Host) (hooks : Hooks) (view : View)
    (app : NaClApplication)
    (c1 : app.viewportSize ≠ ⟨view.GetRect.width, view.GetRect.height⟩) :
    DidChangeView.process host hooks view app =
      invoke host .drawEvent hooks.drawEvent
        (invoke host (.viewportEvent ⟨view.GetRect.width, view.GetRect.height⟩)
          (hooks.viewportEvent ⟨view.GetRect.width, view.GetRect.height⟩)
          { flags := { app.flags with ViewportUpdated := false },
            viewportSize := ⟨view.GetRect.width, view.GetRect.height⟩,
            calls := app.calls ++ [.ResizeBuffers view.GetRect.width view.GetRect.height] }) := by
  have c : (app.viewportSize != ⟨view.GetRect.width, view.GetRect.height⟩) = true := by
    simpa using c1
  unfold DidChangeView.process
  simp only [c, if_true, NaClApplication.setFlag, NaClApplication.clearFlag,
    NaClApplication.call, Flags.set, Flags.clear, Flags.has]

/-- Lines 127-142 when the size is the stored one and `ViewportUpdated` is set. -/
theorem DidChangeView.process_updated (host : Host) (hooks : Hooks) (view : View)
    (app : NaClApplication)
    (c1 : app.viewportSize = ⟨view.GetRect.width, view.GetRect.height⟩)
    (c2 : app.flags.has .ViewportUpdated = true) :
    DidChangeView.process host hooks view app =
      invoke host .drawEvent hooks.drawEvent
        (invoke host (.viewportEvent ⟨view.GetRect.width, view.GetRect.height⟩)
          (hooks.viewportEvent ⟨view.GetRect.width, view.GetRect.height⟩)
          { app with flags := { app.flags with ViewportUpdated := false } }) := by
  have c : (app.viewportSize != ⟨view.GetRect.width, view.GetRect.height⟩) = false := by
    simpa using c1
  unfold DidChangeView.process
  simp only [c, c2, if_true, Bool.false_eq_true, if_false, NaClApplication.clearFlag,
    Flags.clear]

/-- Lines 127-142 when the size is the stored one and `ViewportUpdated` is clear. -/
theorem DidChangeView.process_plain (host : Host) (hooks : Hooks) (view : View)
    (app : NaClApplication)
    (c1 : app.viewportSize = ⟨view.GetRect.width, view.GetRect.height⟩)
    (c2 : app.flags.has .ViewportUpdated = false) :
    DidChangeView.process host hooks view app = invoke host .drawEvent hooks.drawEvent app := by
  have c : (app.viewportSize != ⟨view.GetRect.width, view.GetRect.height⟩) = false := by
    simpa using c1
  unfold DidChangeView.process
  simp only [c, c2, Bool.false_eq_true, if_false]

/-- The viewport hook followed by the draw hook: log, size and
`ViewportUpdated` on return. -/
theorem invoke_viewport_draw (host : Host) (hooks : Hooks) (size : Vector2i)
    (a : NaClApplication) :
    ∃ l₁ l₂, (invoke host .drawEvent hooks.drawEvent
        (invoke host (.viewportEvent size) (hooks.viewportEvent size) a)).calls =
        a.calls ++ (Call.viewportEvent size :: l₁ ++ Call.drawEvent :: l₂) ∧
      (∀ x ∈ l₁, x.fromApi = true) ∧ (∀ x ∈ l₂, x.fromApi = true) ∧
      (invoke host .drawEvent hooks.drawEvent
        (invoke host (.viewportEvent size) (hooks.viewportEvent size) a)).viewportSize =
        a.viewportSize ∧
      (invoke host .drawEvent hooks.drawEvent
        (invoke host (.viewportEvent size) (hooks.viewportEvent size) a)).flags.has
          .ViewportUpdated = a.flags.has .ViewportUpdated := by
  obtain ⟨l₁, e₁, m₁⟩ := invoke_calls host (.viewportEvent size) (hooks.viewportEvent size) a
  have f₁ := invoke_effect host (.viewportEvent size) (hooks.viewportEvent size) a
  obtain ⟨l₂, e₂, m₂⟩ := invoke_calls host .drawEvent hooks.drawEvent
    (invoke host (.viewportEvent size) (hooks.viewportEvent size) a)
  have f₂ := invoke_effect host .drawEvent hooks.drawEvent
    (invoke host (.viewportEvent size) (hooks.viewportEvent size) a)
  refine ⟨l₁, l₂, ?_, m₁, m₂, ?_, ?_⟩
  · rw [e₂, e₁]
    simp
  · rw [f₂.size_eq]
    exact f₁.size_eq
  · rw [f₂.updated_eq]
    exact f₁.updated_eq

/-- What lines 127-142 do, in full: the log grows by the resize request when
the size differs, then the viewport hook when the size differs or
`ViewportUpdated` was set, then the draw hook; each hook invocation is followed
only by requests its body sends.  On return the stored size is the reported
one and `ViewportUpdated` is clear. -/
theorem DidChangeView.process_spec (host : Host) (hooks : Hooks) (view : View)
    (app : NaClApplication) :
    ∃ l₁ l₂, (DidChangeView.process host hooks view app).calls =
        app.calls ++
          ((if app.viewportSize ≠ ⟨view.GetRect.width, view.GetRect.height⟩ then
              [Call.ResizeBuffers view.GetRect.width view.GetRect.height] else []) ++
            ((if app.viewportSize ≠ ⟨view.GetRect.width, view.GetRect.height⟩ ∨
                app.flags.has .ViewportUpdated = true then
              Call.viewportEvent ⟨view.GetRect.width, view.GetRect.height⟩ :: l₁ else []) ++
              Call.drawEvent :: l₂)) ∧
      (∀ x ∈ l₁, x.fromApi = true) ∧ (∀ x ∈ l₂, x.fromApi = true) ∧
      (DidChangeView.process host hooks view app).viewportSize =
        ⟨view.GetRect.width, view.GetRect.height⟩ ∧
      (DidChangeView.process host hooks view app).flags.has .ViewportUpdated = false := by
  by_cases c1 : app.viewportSize = ⟨view.GetRect.width, view.GetRect.height⟩
  · cases c2 : app.flags.has .ViewportUpdated
    · rw [DidChangeView.process_plain host hooks view app c1 c2]
      obtain ⟨l₂, e₂, m₂⟩ := invoke_calls host .drawEvent hooks.drawEvent app
      have f₂ := invoke_effect host .drawEvent hooks.drawEvent app
      refine ⟨[], l₂, ?_, by simp, m₂, ?_, ?_⟩
      · rw [e₂]
        simp [c1]
      · rw [f₂.size_eq]
        exact c1
      · rw [f₂.updated_eq]
        exact c2
    · rw [DidChangeView.process_updated host hooks view app c1 c2]
      obtain ⟨l₁, l₂, e, m₁, m₂, hs, hu⟩ := invoke_viewport_draw host hooks
        ⟨view.GetRect.width, view.GetRect.height⟩
        { app with flags := { app.flags with ViewportUpdated := false } }
      refine ⟨l₁, l₂, ?_, m₁, m₂, ?_, ?_⟩
      · rw [e]
        simp [c1]
      · rw [hs]
        exact c1
      · rw [hu]
        rfl
  · rw [DidChangeView.process_resized host hooks view app c1]
    obtain ⟨l₁, l₂, e, m₁, m₂, hs, hu⟩ := invoke_viewport_draw host hooks
      ⟨view.GetRect.width, view.GetRect.height⟩
      { flags := { app.flags with ViewportUpdated := false },
        viewportSize := ⟨view.GetRect.width, view.GetRect.height⟩,
        calls := app.calls ++ [.ResizeBuffers view.GetRect.width view.GetRect.height] }
    refine ⟨l₁, l₂, ?_, m₁, m₂, ?_, ?_⟩
    · rw [e]
      simp [c1]
    · rw [hs]
    · rw [hu]
      rfl

/-- C11: a session created with the default configuration has viewport size
640x480 and `ViewportUpdated` set; its first view-changed notification, if it
reports a 640x480 rectangle, invokes the viewport hook with (640,480) and then
the draw hook, each exactly once (everything else in the log is a request sent
by one of the two hook bodies, so the buffers are not resized), and leaves
`ViewportUpdated` clear. -/
theorem default_session_first_view (host : Host) (hooks : Hooks) (x y : Int) :
    ∃ app0, createContext false true Configuration.default = some app0 ∧
      app0.viewportSize = ⟨640, 480⟩ ∧ app0.flags.has .ViewportUpdated = true ∧
      ∃ l₁ l₂, (DidChangeView host hooks ⟨⟨x, y, 640, 480⟩⟩ app0).calls =
          Call.viewportEvent ⟨640, 480⟩ :: l₁ ++ Call.drawEvent :: l₂ ∧
        (∀ c ∈ l₁, c.fromApi = true) ∧ (∀ c ∈ l₂, c.fromApi = true) ∧
        (DidChangeView host hooks ⟨⟨x, y, 640, 480⟩⟩ app0).viewportSize = ⟨640, 480⟩ ∧
        (DidChangeView host hooks ⟨⟨x, y, 640, 480⟩⟩ app0).flags.has .ViewportUpdated =
          false := by
  refine ⟨⟨Flags.empty.set .ViewportUpdated, ⟨640, 480⟩, []⟩, rfl, rfl, rfl, ?_⟩
  obtain ⟨l₁, l₂, e, m₁, m₂, hs, hu⟩ := DidChangeView.process_spec host hooks
    ⟨⟨x, y, 640, 480⟩⟩ ⟨Flags.empty.set .ViewportUpdated, ⟨640, 480⟩, []⟩
  have hd : DidChangeView host hooks ⟨⟨x, y, 640, 480⟩⟩
      ⟨Flags.empty.set .ViewportUpdated, ⟨640, 480⟩, []⟩ =
      DidChangeView.process host hooks ⟨⟨x, y, 640, 480⟩⟩
        ⟨Flags.empty.set .ViewportUpdated, ⟨640, 480⟩, []⟩ := by
    simp [DidChangeView, Flags.empty, Flags.set, Flags.has]
  rw [hd]
  refine ⟨l₁, l₂, ?_, m₁, m₂, hs, hu⟩
  rw [e]
  simp [Flags.empty, Flags.set, Flags.has]

/-- C12: a settled view change reporting extent `s` sends the resize request
(for `s`) exactly when `s` differs from the stored size; then invokes the
viewport hook, once and with `s`, exactly when `s` differs or `ViewportUpdated`
was set; then the draw hook.  Nothing else enters the log but requests sent by
the two hook bodies.  On return the stored size is `s` and `ViewportUpdated`
is clear, whatever the hook bodies do. -/
theorem DidChangeView_settled_resize_viewport (host : Host) (hooks : Hooks) (view : View)
    (app : NaClApplication)
    (hs : app.flags.has .FullscreenSwitchInProgress = false ∨
      host.IsFullscreen = app.flags.has .WillBeFullscreen) :
    ∃ l₁ l₂, (DidChangeView host hooks view app).calls =
        app.calls ++
          ((if app.viewportSize ≠ ⟨view.GetRect.width, view.GetRect.height⟩ then
              [Call.ResizeBuffers view.GetRect.width view.GetRect.height] else []) ++
            ((if app.viewportSize ≠ ⟨view.GetRect.width, view.GetRect.height⟩ ∨
                app.flags.has .ViewportUpdated = true then
              Call.viewportEvent ⟨view.GetRect.width, view.GetRect.height⟩ :: l₁ else []) ++
              Call.drawEvent :: l₂)) ∧
      (∀ x ∈ l₁, x.fromApi = true) ∧ (∀ x ∈ l₂, x.fromApi = true) ∧
      (DidChangeView host hooks view app).viewportSize =
        ⟨view.GetRect.width, view.GetRect.height⟩ ∧
      (DidChangeView host hooks view app).flags.has .ViewportUpdated = false := by
  by_cases hp : app.flags.has .FullscreenSwitchInProgress = true
  · have hh : host.IsFullscreen = app.flags.has .WillBeFullscreen := by
      rcases hs with h | h
      · rw [hp] at h; cases h
      · exact h
    have hd : DidChangeView host hooks view app = DidChangeView.process host hooks view
        ((app.clearFlag .FullscreenSwitchInProgress).setFlag .Redraw) := by
      simp [DidChangeView, hp, isFullscreen, hh]
    rw [hd]
    have h := DidChangeView.process_spec host hooks view
      ((app.clearFlag .FullscreenSwitchInProgress).setFlag .Redraw)
    have hv : ((app.clearFlag .FullscreenSwitchInProgress).setFlag .Redraw).flags.has
        .ViewportUpdated = app.flags.has .ViewportUpdated := rfl
    rw [hv] at h
    exact h
  · have hd : DidChangeView host hooks view app = DidChangeView.process host hooks view app := by
      simp [DidChangeView, hp]
    rw [hd]
    exact DidChangeView.process_spec host hooks view app

/-- Witness for C12: a switch to fullscreen settles on a 1920x1080 view. -/
theorem DidChangeView_settled_resize_viewport_witness :
    ∃ l₁ l₂, (DidChangeView ⟨true, fun _ => true⟩ Hooks.idle ⟨⟨0, 0, 1920, 1080⟩⟩
        ⟨⟨false, false, false, true, true, false⟩, ⟨640, 480⟩, []⟩).calls =
        [] ++
          ((if (⟨640, 480⟩ : Vector2i) ≠ ⟨1920, 1080⟩ then
              [Call.ResizeBuffers 1920 1080] else []) ++
            ((if (⟨640, 480⟩ : Vector2i) ≠ ⟨1920, 1080⟩ ∨
                (⟨false, false, false, true, true, false⟩ : Flags).has .ViewportUpdated = true then
              Call.viewportEvent ⟨1920, 1080⟩ :: l₁ else []) ++
              Call.drawEvent :: l₂)) ∧
      (∀ x ∈ l₁, x.fromApi = true) ∧ (∀ x ∈ l₂, x.fromApi = true) ∧
      (DidChangeView ⟨true, fun _ => true⟩ Hooks.idle ⟨⟨0, 0, 1920, 1080⟩⟩
        ⟨⟨false, false, false, true, true, false⟩, ⟨640, 480⟩, []⟩).viewportSize =
        ⟨1920, 1080⟩ ∧
      (DidChangeView ⟨true, fun _ => true⟩ Hooks.idle ⟨⟨0, 0, 1920, 1080⟩⟩
        ⟨⟨false, false, false, true, true, false⟩, ⟨640, 480⟩, []⟩).flags.has
          .ViewportUpdated = false :=
  DidChangeView_settled_resize_viewport ⟨true, fun _ => true⟩ Hooks.idle
    ⟨⟨0, 0, 1920, 1080⟩⟩ ⟨⟨false, false, false, true, true, false⟩, ⟨640, 480⟩, []⟩
    (Or.inr rfl)

/-! ## Input dispatch -/

/-- Outside a fullscreen switch, `HandleInputEvent` is the dispatch table
followed by the code after the hook. -/
theorem HandleInputEvent_of_table (host : Host) (hooks : Hooks) (event : InputEvent)
    (app : NaClApplication) (hp : app.flags.has .FullscreenSwitchInProgress = false) :
    HandleInputEvent host hooks event app =
      match dispatchTable hooks event with
      | none => (.returned false, app)
      | some (c, body) =>
          HandleInputEvent.afterHook host hooks app.flags (dispatch host c body app) := by
  unfold HandleInputEvent dispatchTable
  cases h : event.GetType <;> simp [hp]

theorem HandleInputEvent_of_none (host : Host) (hooks : Hooks) (event : InputEvent)
    (app : NaClApplication) (hp : app.flags.has .FullscreenSwitchInProgress = false)
    (ht : dispatchTable hooks event = none) :
    HandleInputEvent host hooks event app = (.returned false, app) := by
  rw [HandleInputEvent_of_table host hooks event app hp, ht]

theorem HandleInputEvent_of_some (host : Host) (hooks : Hooks) (event : InputEvent)
    (app : NaClApplication) (hp : app.flags.has .FullscreenSwitchInProgress = false)
    {c : Call} {body : Hook} (ht : dispatchTable hooks event = some (c, body)) :
    HandleInputEvent host hooks event app =
      HandleInputEvent.afterHook host hooks app.flags (dispatch host c body app) := by
  rw [HandleInputEvent_of_table host hooks event app hp, ht]

theorem dispatchTable_isInputHook {hooks : Hooks} {event : InputEvent} {c : Call} {body : Hook}
    (ht : dispatchTable hooks event = some (c, body)) : c.isInputHook = true := by
  unfold dispatchTable at ht
  split_ifs at ht <;> simp only [Option.some.injEq, Prod.mk.injEq] at ht <;>
    (rw [← ht.1]; rfl)

theorem HandleInputEvent.afterHook_unaccepted (host : Host) (hooks : Hooks) (tmpFlags : Flags)
    (r : NaClApplication × Bool) (h : r.2 = false) :
    HandleInputEvent.afterHook host hooks tmpFlags r = (.returned false, r.1) := by
  simp [HandleInputEvent.afterHook, h]

theorem HandleInputEvent.afterHook_failed (host : Host) (hooks : Hooks) (tmpFlags : Flags)
    (r : NaClApplication × Bool) (h : r.2 = true)
    (hs : r.1.flags.has .SwapInProgress ≠ tmpFlags.has .SwapInProgress) :
    HandleInputEvent.afterHook host hooks tmpFlags r = (.assertionFailed, r.1) := by
  have : (tmpFlags.has .SwapInProgress != r.1.flags.has .SwapInProgress) = true := by
    simpa using fun e => hs e.symm
  simp [HandleInputEvent.afterHook, HandleInputEvent.finish, h, this]

theorem HandleInputEvent.afterHook_draw (host : Host) (hooks : Hooks) (tmpFlags : Flags)
    (r : NaClApplication × Bool) (h : r.2 = true)
    (hs : r.1.flags.has .SwapInProgress = tmpFlags.has .SwapInProgress)
    (hr : r.1.flags.has .Redraw = true) (hc : r.1.flags.has .SwapInProgress = false) :
    HandleInputEvent.afterHook host hooks tmpFlags r =
      (.returned true, invoke host .drawEvent hooks.drawEvent (r.1.clearFlag .Redraw)) := by
  have hc2 : tmpFlags.has .SwapInProgress = false := hs ▸ hc
  simp [HandleInputEvent.afterHook, HandleInputEvent.finish, h, hr, hc, hc2]

theorem HandleInputEvent.afterHook_plain (host : Host) (hooks : Hooks) (tmpFlags : Flags)
    (r : NaClApplication × Bool) (h : r.2 = true)
    (hs : r.1.flags.has .SwapInProgress = tmpFlags.has .SwapInProgress)
    (hn : ¬(r.1.flags.has .Redraw = true ∧ r.1.flags.has .SwapInProgress = false)) :
    HandleInputEvent.afterHook host hooks tmpFlags r = (.returned true, r.1) := by
  have : (tmpFlags.has .SwapInProgress != r.1.flags.has .SwapInProgress) = false := by
    simp [hs]
  have hn2 : (r.1.flags.has .Redraw && !r.1.flags.has .SwapInProgress) = false := by
    cases h1 : r.1.flags.has .Redraw <;> cases h2 : r.1.flags.has .SwapInProgress <;>
      simp_all
  simp [HandleInputEvent.afterHook, HandleInputEvent.finish, h, this, hn2]

theorem fromApi_not_input {c : Call} (h : c.fromApi = true) : c.isInputHook = false := by
  cases c <;> simp_all [Call.fromApi, Call.isInputHook]

/-- What dispatching adds to the log: the hook invocation, then requests
sent by its body. -/
theorem dispatch_calls (host : Host) (c : Call) (body : Hook) (app : NaClApplication) :
    ∃ l, (dispatch host c body app).1.calls = app.calls ++ c :: l ∧
      ∀ x ∈ l, x.fromApi = true := by
  obtain ⟨l, hl, hm⟩ := (dispatch_effect host c body app).log_ext
  refine ⟨l, ?_, hm⟩
  rw [hl]
  simp [NaClApplication.call]

/-- After the hook, whatever the outcome: the log grows only by calls that
are not input hooks. -/
theorem HandleInputEvent.afterHook_calls (host : Host) (hooks : Hooks) (tmpFlags : Flags)
    (r : NaClApplication × Bool) :
    ∃ l, (HandleInputEvent.afterHook host hooks tmpFlags r).2.calls = r.1.calls ++ l ∧
      ∀ x ∈ l, x.isInputHook = false := by
  unfold HandleInputEvent.afterHook HandleInputEvent.finish
  split_ifs
  · exact ⟨[], by simp, by simp⟩
  · exact ⟨[], by simp, by simp⟩
  · obtain ⟨l, hl, hm⟩ := invoke_calls host .drawEvent hooks.drawEvent
      (r.1.clearFlag .Redraw)
    refine ⟨Call.drawEvent :: l, by simpa [NaClApplication.clearFlag] using hl, ?_⟩
    intro x hx
    rcases List.mem_cons.mp hx with h | h
    · rw [h]; rfl
    · exact fromApi_not_input (hm x h)
  · exact ⟨[], by simp, by simp⟩

/-- C13: outside a fullscreen switch, an event of any type other than the
five recognised ones makes `HandleInputEvent` return `false` with the session
untouched; a recognised event is dispatched to the one hook the dispatch table
names, on a record whose accepted bit starts clear, and no other input hook is
invoked; if that hook leaves `SwapInProgress` as it was, the value returned is
the accepted bit the hook left. -/
theorem HandleInputEvent_dispatches (host : Host) (hooks : Hooks) (event : InputEvent)
    (app : NaClApplication) (hp : app.flags.has .FullscreenSwitchInProgress = false) :
    (dispatchTable hooks event = none →
      HandleInputEvent host hooks event app = (.returned false, app)) ∧
    (∀ c body, dispatchTable hooks event = some (c, body) →
      c.isInputHook = true ∧
      (∃ l, (HandleInputEvent host hooks event app).2.calls = app.calls ++ c :: l ∧
        ∀ x ∈ l, x.isInputHook = false) ∧
      ((body.run host false (app.call c)).1.flags.has .SwapInProgress =
          app.flags.has .SwapInProgress →
        (HandleInputEvent host hooks event app).1 =
          .returned (body.run host false (app.call c)).2)) := by
  refine ⟨HandleInputEvent_of_none host hooks event app hp, ?_⟩
  intro c body ht
  rw [HandleInputEvent_of_some host hooks event app hp ht]
  refine ⟨dispatchTable_isInputHook ht, ?_, ?_⟩
  · obtain ⟨l₁, e₁, m₁⟩ := dispatch_calls host c body app
    obtain ⟨l₂, e₂, m₂⟩ := HandleInputEvent.afterHook_calls host hooks app.flags
      (dispatch host c body app)
    refine ⟨l₁ ++ l₂, by rw [e₂, e₁]; simp, ?_⟩
    intro x hx
    rcases List.mem_append.mp hx with h | h
    · exact fromApi_not_input (m₁ x h)
    · exact m₂ x h
  · intro hs
    change (dispatch host c body app).1.flags.has .SwapInProgress =
      app.flags.has .SwapInProgress at hs
    change (HandleInputEvent.afterHook host hooks app.flags (dispatch host c body app)).1 =
      .returned (dispatch host c body app).2
    cases hacc : (dispatch host c body app).2
    · rw [HandleInputEvent.afterHook_unaccepted _ _ _ _ hacc]
    · by_cases hd : (dispatch host c body app).1.flags.has .Redraw = true ∧
          (dispatch host c body app).1.flags.has .SwapInProgress = false
      · rw [HandleInputEvent.afterHook_draw _ _ _ _ hacc hs hd.1 hd.2]
      · rw [HandleInputEvent.afterHook_plain _ _ _ _ hacc hs hd]

/-- Witness for C13: a mouse-move event whose hook accepts it. -/
theorem HandleInputEvent_dispatches_witness :
    HandleInputEvent ⟨false, fun _ => true⟩
        ⟨fun _ => .done, .done, fun _ => .done, fun _ => .done, fun _ => .done,
          fun _ => .done, fun _ => .setAccepted true .done⟩
        ⟨.MOUSEMOVE, 0, 0, 0, ⟨10, 20⟩, ⟨1, 2⟩⟩
        ⟨⟨false, false, false, false, false, false⟩, ⟨640, 480⟩, []⟩ =
      (.returned true, ⟨⟨false, false, false, false, false, false⟩, ⟨640, 480⟩,
        [.mouseMoveEvent ⟨⟨10, 20⟩, ⟨1, 2⟩, 0⟩]⟩) ∧
    HandleInputEvent ⟨false, fun _ => true⟩
        ⟨fun _ => .done, .done, fun _ => .done, fun _ => .done, fun _ => .done,
          fun _ => .done, fun _ => .setAccepted true .done⟩
        ⟨.WHEEL, 0, 0, 0, ⟨10, 20⟩, ⟨1, 2⟩⟩
        ⟨⟨false, false, false, false, false, false⟩, ⟨640, 480⟩, []⟩ =
      (.returned false, ⟨⟨false, false, false, false, false, false⟩, ⟨640, 480⟩, []⟩) :=
  ⟨Prod.ext
    (((HandleInputEvent_dispatches ⟨false, fun _ => true⟩
      ⟨fun _ => .done, .done, fun _ => .done, fun _ => .done, fun _ => .done,
        fun _ => .done, fun _ => .setAccepted true .done⟩
      ⟨.MOUSEMOVE, 0, 0, 0, ⟨10, 20⟩, ⟨1, 2⟩⟩
      ⟨⟨false, false, false, false, false, false⟩, ⟨640, 480⟩, []⟩ rfl).2
        (.mouseMoveEvent ⟨⟨10, 20⟩, ⟨1, 2⟩, 0⟩) (.setAccepted true .done) rfl).2.2 rfl)
    (by decide),
   (HandleInputEvent_dispatches ⟨false, fun _ => true⟩
      ⟨fun _ => .done, .done, fun _ => .done, fun _ => .done, fun _ => .done,
        fun _ => .done, fun _ => .setAccepted true .done⟩
      ⟨.WHEEL, 0, 0, 0, ⟨10, 20⟩, ⟨1, 2⟩⟩
      ⟨⟨false, false, false, false, false, false⟩, ⟨640, 480⟩, []⟩ rfl).1 rfl⟩

/-- C14: for a recognised event outside a fullscreen switch whose hook accepts
it and leaves `SwapInProgress` as it was: if after the hook `Redraw` is set and
`SwapInProgress` is clear, `HandleInputEvent` clears `Redraw`, invokes the draw
hook exactly once and returns `true`; otherwise it returns `true` with the
session exactly as the hook left it, no draw hook invoked. -/
theorem HandleInputEvent_flushes_redraw (host : Host) (hooks : Hooks) (event : InputEvent)
    (app : NaClApplication) (c : Call) (body : Hook)
    (hp : app.flags.has .FullscreenSwitchInProgress = false)
    (ht : dispatchTable hooks event = some (c, body))
    (hacc : (dispatch host c body app).2 = true)
    (hs : (dispatch host c body app).1.flags.has .SwapInProgress =
      app.flags.has .SwapInProgress) :
    ((dispatch host c body app).1.flags.has .Redraw = true ∧
        (dispatch host c body app).1.flags.has .SwapInProgress = false →
      HandleInputEvent host hooks event app =
        (.returned true, invoke host .drawEvent hooks.drawEvent
          ((dispatch host c body app).1.clearFlag .Redraw)) ∧
      ((dispatch host c body app).1.clearFlag .Redraw).flags.has .Redraw = false ∧
      (HandleInputEvent host hooks event app).2.calls.count .drawEvent =
        app.calls.count .drawEvent + 1) ∧
    (¬((dispatch host c body app).1.flags.has .Redraw = true ∧
        (dispatch host c body app).1.flags.has .SwapInProgress = false) →
      HandleInputEvent host hooks event app = (.returned true, (dispatch host c body app).1) ∧
      (HandleInputEvent host hooks event app).2.calls.count .drawEvent =
        app.calls.count .drawEvent) := by
  have hcnt := dispatch_count_draw host c body app (dispatchTable_isInputHook ht)
  rw [HandleInputEvent_of_some host hooks event app hp ht]
  constructor
  · intro hd
    rw [HandleInputEvent.afterHook_draw _ _ _ _ hacc hs hd.1 hd.2]
    refine ⟨rfl, ?_, ?_⟩
    · cases h : (dispatch host c body app).1.flags
      simp [NaClApplication.clearFlag, Flags.clear, Flags.has, h]
    · rw [count_draw_invoke]
      simpa [NaClApplication.clearFlag] using hcnt
  · intro hd
    rw [HandleInputEvent.afterHook_plain _ _ _ _ hacc hs hd]
    exact ⟨rfl, hcnt⟩

/-- Witness for C14: a key press whose hook accepts it and calls `redraw()`,
no swap outstanding. -/
theorem HandleInputEvent_flushes_redraw_witness :
    HandleInputEvent ⟨false, fun _ => true⟩
        ⟨fun _ => .done, .swapBuffers .done, fun _ => .redraw (.setAccepted true .done),
          fun _ => .done, fun _ => .done, fun _ => .done, fun _ => .done⟩
        ⟨.KEYDOWN, 65, 0, 0, ⟨0, 0⟩, ⟨0, 0⟩⟩
        ⟨⟨false, false, false, false, false, false⟩, ⟨640, 480⟩, []⟩ =
      (.returned true, ⟨⟨false, true, false, false, false, false⟩, ⟨640, 480⟩,
        [.keyPressEvent ⟨65, 0⟩, .drawEvent, .SwapBuffers]⟩) :=
  ((HandleInputEvent_flushes_redraw ⟨false, fun _ => true⟩
      ⟨fun _ => .done, .swapBuffers .done, fun _ => .redraw (.setAccepted true .done),
        fun _ => .done, fun _ => .done, fun _ => .done, fun _ => .done⟩
      ⟨.KEYDOWN, 65, 0, 0, ⟨0, 0⟩, ⟨0, 0⟩⟩
      ⟨⟨false, false, false, false, false, false⟩, ⟨640, 480⟩, []⟩
      (.keyPressEvent ⟨65, 0⟩) (.redraw (.setAccepted true .done)) rfl rfl rfl rfl).1
    ⟨rfl, rfl⟩).1

/-- C15, as stated, fails: a key-press hook that calls `swapBuffers()` and
leaves the event unaccepted changes `SwapInProgress`, yet `HandleInputEvent`
returns `false` normally; the `return false` of line 157 comes before the
assertion. -/
theorem HandleInputEvent_assertion_counterexample :
    dispatchTable
        ⟨fun _ => .done, .done, fun _ => .swapBuffers .done, fun _ => .done, fun _ => .done,
          fun _ => .done, fun _ => .done⟩
        ⟨.KEYDOWN, 65, 0, 0, ⟨0, 0⟩, ⟨0, 0⟩⟩ =
      some (.keyPressEvent ⟨65, 0⟩, .swapBuffers .done) ∧
    (⟨⟨false, false, false, false, false, false⟩, ⟨640, 480⟩, []⟩ :
        NaClApplication).flags.has .SwapInProgress = false ∧
    HandleInputEvent ⟨false, fun _ => true⟩
        ⟨fun _ => .done, .done, fun _ => .swapBuffers .done, fun _ => .done, fun _ => .done,
          fun _ => .done, fun _ => .done⟩
        ⟨.KEYDOWN, 65, 0, 0, ⟨0, 0⟩, ⟨0, 0⟩⟩
        ⟨⟨false, false, false, false, false, false⟩, ⟨640, 480⟩, []⟩ =
      (.returned false, ⟨⟨false, true, false, false, false, false⟩, ⟨640, 480⟩,
        [.keyPressEvent ⟨65, 0⟩, .SwapBuffers]⟩) := by
  refine ⟨rfl, rfl, ?_⟩
  decide

/-- C15, amended to accepted events: for a recognised event outside a
fullscreen switch, if the hook accepts the event and leaves `SwapInProgress`
different from what it was, `HandleInputEvent` ends in the failed assertion;
it returns normally exactly when the hook left the event unaccepted or left
`SwapInProgress` unchanged. -/
theorem HandleInputEvent_assertion (host : Host) (hooks : Hooks) (event : InputEvent)
    (app : NaClApplication) (c : Call) (body : Hook)
    (hp : app.flags.has .FullscreenSwitchInProgress = false)
    (ht : dispatchTable hooks event = some (c, body)) :
    ((dispatch host c body app).2 = true →
      (dispatch host c body app).1.flags.has .SwapInProgress ≠
        app.flags.has .SwapInProgress →
      (HandleInputEvent host hooks event app).1 = .assertionFailed) ∧
    ((∃ b, (HandleInputEvent host hooks event app).1 = .returned b) ↔
      ((dispatch host c body app).2 = false ∨
        (dispatch host c body app).1.flags.has .SwapInProgress =
          app.flags.has .SwapInProgress)) := by
  rw [HandleInputEvent_of_some host hooks event app hp ht]
  cases hacc : (dispatch host c body app).2
  · rw [HandleInputEvent.afterHook_unaccepted _ _ _ _ hacc]
    simp
  · by_cases hs : (dispatch host c body app).1.flags.has .SwapInProgress =
        app.flags.has .SwapInProgress
    · by_cases hd : (dispatch host c body app).1.flags.has .Redraw = true ∧
          (dispatch host c body app).1.flags.has .SwapInProgress = false
      · rw [HandleInputEvent.afterHook_draw _ _ _ _ hacc hs hd.1 hd.2]
        simp [hs]
      · rw [HandleInputEvent.afterHook_plain _ _ _ _ hacc hs hd]
        simp [hs]
    · rw [HandleInputEvent.afterHook_failed _ _ _ _ hacc hs]
      simp [hs]

/-- Witness for C15 amended: a key-press hook that accepts the event and
calls `swapBuffers()` while no swap is outstanding. -/
theorem HandleInputEvent_assertion_witness :
    (HandleInputEvent ⟨false, fun _ => true⟩
        ⟨fun _ => .done, .done, fun _ => .setAccepted true (.swapBuffers .done),
          fun _ => .done, fun _ => .done, fun _ => .done, fun _ => .done⟩
        ⟨.KEYDOWN, 65, 0, 0, ⟨0, 0⟩, ⟨0, 0⟩⟩
        ⟨⟨false, false, false, false, false, false⟩, ⟨640, 480⟩, []⟩).1 =
      .assertionFailed :=
  (HandleInputEvent_assertion ⟨false, fun _ => true⟩
      ⟨fun _ => .done, .done, fun _ => .setAccepted true (.swapBuffers .done),
        fun _ => .done, fun _ => .done, fun _ => .done, fun _ => .done⟩
      ⟨.KEYDOWN, 65, 0, 0, ⟨0, 0⟩, ⟨0, 0⟩⟩
      ⟨⟨false, false, false, false, false, false⟩, ⟨640, 480⟩, []⟩
      (.keyPressEvent ⟨65, 0⟩) (.setAccepted true (.swapBuffers .done)) rfl rfl).1 rfl
    (by decide)

theorem invoke_locked (host : Host) (c : Call) (body : Hook) (a : NaClApplication) :
    (invoke host c body a).flags.has .MouseLocked = a.flags.has .MouseLocked :=
  (invoke_effect host c body a).locked_eq

theorem DidChangeView.process_locked (host : Host) (hooks : Hooks) (view : View)
    (a : NaClApplication) :
    (DidChangeView.process host hooks view a).flags.has .MouseLocked =
      a.flags.has .MouseLocked := by
  by_cases c1 : a.viewportSize = ⟨view.GetRect.width, view.GetRect.height⟩
  · cases c2 : a.flags.has .ViewportUpdated
    · rw [DidChangeView.process_plain host hooks view a c1 c2, invoke_locked]
    · rw [DidChangeView.process_updated host hooks view a c1 c2, invoke_locked, invoke_locked]
      rfl
  · rw [DidChangeView.process_resized host hooks view a c1, invoke_locked, invoke_locked]
    rfl

theorem DidChangeView_locked (host : Host) (hooks : Hooks) (view : View)
    (a : NaClApplication) :
    (DidChangeView host hooks view a).flags.has .MouseLocked = a.flags.has .MouseLocked := by
  unfold DidChangeView
  split_ifs
  · rw [DidChangeView.process_locked]
    rfl
  · rfl
  · exact DidChangeView.process_locked host hooks view a

theorem HandleInputEvent.afterHook_locked (host : Host) (hooks : Hooks) (tmpFlags : Flags)
    (r : NaClApplication × Bool) :
    (HandleInputEvent.afterHook host hooks tmpFlags r).2.flags.has .MouseLocked =
      r.1.flags.has .MouseLocked := by
  unfold HandleInputEvent.afterHook HandleInputEvent.finish
  split_ifs
  · rfl
  · rfl
  · rw [invoke_locked]
    rfl
  · rfl

theorem HandleInputEvent_locked (host : Host) (hooks : Hooks) (event : InputEvent)
    (a : NaClApplication) :
    (HandleInputEvent host hooks event a).2.flags.has .MouseLocked =
      a.flags.has .MouseLocked := by
  rcases HandleInputEvent_cases host hooks event a with h | ⟨c, body, _, _, h⟩ <;> rw [h]
  rw [HandleInputEvent.afterHook_locked]
  exact (dispatch_effect host c body a).locked_eq

theorem swapCallback_locked (host : Host) (hooks : Hooks) (a : NaClApplication) :
    (swapCallback host hooks a).flags.has .MouseLocked = a.flags.has .MouseLocked := by
  cases hr : a.flags.has .Redraw
  · rw [swapCallback_of_clear host hooks a hr]
    rfl
  · rw [swapCallback_of_set host hooks a hr, invoke_locked]
    rfl

/-- Every step other than the lock completion leaves `MouseLocked` as it was. -/
theorem Session.step_locked (st : Step) (s s1 : Session) (hne : st ≠ Step.mouseLockCallback)
    (h : Session.step st s = some s1) :
    s1.app.flags.has .MouseLocked = s.app.flags.has .MouseLocked := by
  cases st with
  | setFullscreen host enabled =>
      simp only [Session.step, Option.some.injEq] at h
      rw [← h]
      exact (setFullscreen_effect host enabled s.app).locked_eq
  | swapBuffers =>
      simp only [Session.step, Option.some.injEq] at h
      rw [← h]
      exact (swapBuffers_effect s.app).locked_eq
  | redraw =>
      simp only [Session.step, Option.some.injEq] at h
      rw [← h]
      exact (redraw_effect s.app).locked_eq
  | setMouseLocked enabled =>
      simp only [Session.step, Option.some.injEq] at h
      rw [← h]
      exact (setMouseLocked_effect enabled s.app).locked_eq
  | mouseLockCallback => exact absurd rfl hne
  | notify n =>
      cases n with
      | DidChangeView host hooks view =>
          simp only [Session.step, Option.some.injEq] at h
          rw [← h]
          exact DidChangeView_locked host hooks view s.app
      | HandleInputEvent host hooks event =>
          have hb := HandleInputEvent_locked host hooks event s.app
          simp only [Session.step] at h
          split at h
          · rename_i b a e
            simp only [Option.some.injEq] at h
            rw [← h]
            rw [e] at hb
            exact hb
          · simp at h
      | swapCallback host hooks =>
          simp only [Session.step] at h
          split_ifs at h
          simp only [Option.some.injEq] at h
          rw [← h]
          exact swapCallback_locked host hooks s.app

/-- Once `MouseLocked` is set, every step leaves it set. -/
theorem Session.step_stays_locked (st : Step) (s s1 : Session)
    (hl : s.app.flags.has .MouseLocked = true) (h : Session.step st s = some s1) :
    s1.app.flags.has .MouseLocked = true := by
  by_cases hne : st = Step.mouseLockCallback
  · subst hne
    simp only [Session.step, Option.some.injEq] at h
    rw [← h]
    cases hf : s.app.flags
    simp [mouseLockCallback, NaClApplication.setFlag, Flags.set, Flags.has, hf]
  · rw [Session.step_locked st s s1 hne h]
    exact hl

theorem Session.run_stays_locked (steps : List Step) :
    ∀ (s s1 : Session), s.app.flags.has .MouseLocked = true →
      Session.run steps s = some s1 → s1.app.flags.has .MouseLocked = true := by
  induction steps with
  | nil =>
      intro s s1 hl h
      simp only [Session.run, Option.some.injEq] at h
      rw [← h]
      exact hl
  | cons st sts ih =>
      intro s s1 hl h
      simp only [Session.run] at h
      cases hst : Session.step st s with
      | none => simp [hst] at h
      | some s2 =>
          simp only [hst] at h
          exact ih s2 s1 (Session.step_stays_locked st s s2 hl hst) h

/-- C16: `setMouseLocked(enabled)` sends nothing when `enabled` is the current
`MouseLocked` state; otherwise it sends exactly one request, a lock when
`enabled` and an unlock when not; it never changes a flag or the viewport
size.  `mouseLockCallback` sets `MouseLocked` and changes nothing else, and
every other step of a session leaves `MouseLocked` as it was. -/
theorem setMouseLocked_requests (enabled : Bool) (app : NaClApplication) :
    (enabled = app.flags.has .MouseLocked → setMouseLocked enabled app = app) ∧
    (enabled ≠ app.flags.has .MouseLocked →
      setMouseLocked enabled app =
        { app with calls := app.calls ++ [if enabled then .LockMouse else .UnlockMouse] }) ∧
    (setMouseLocked enabled app).flags = app.flags ∧
    (setMouseLocked enabled app).viewportSize = app.viewportSize ∧
    mouseLockCallback app = { app with flags := { app.flags with MouseLocked := true } } ∧
    (∀ (st : Step) (s s1 : Session), st ≠ Step.mouseLockCallback →
      Session.step st s = some s1 →
      s1.app.flags.has .MouseLocked = s.app.flags.has .MouseLocked) := by
  refine ⟨?_, ?_, ?_, ?_, rfl, fun st s s1 => Session.step_locked st s s1⟩
  · intro h
    simp [setMouseLocked, isMouseLocked, h]
  · intro h
    cases enabled <;> simp_all [setMouseLocked, isMouseLocked, NaClApplication.call]
  · unfold setMouseLocked
    split_ifs <;> rfl
  · unfold setMouseLocked
    split_ifs <;> rfl

/-- Witness for C16: unlocking a locked pointer sends one unlock request and
leaves `MouseLocked` set; locking an unlocked one sends one lock request. -/
theorem setMouseLocked_requests_witness :
    setMouseLocked false ⟨⟨false, false, false, false, false, true⟩, ⟨640, 480⟩, []⟩ =
      ⟨⟨false, false, false, false, false, true⟩, ⟨640, 480⟩, [.UnlockMouse]⟩ ∧
    setMouseLocked true ⟨⟨false, false, false, false, false, true⟩, ⟨640, 480⟩, []⟩ =
      ⟨⟨false, false, false, false, false, true⟩, ⟨640, 480⟩, []⟩ :=
  ⟨(setMouseLocked_requests false
      ⟨⟨false, false, false, false, false, true⟩, ⟨640, 480⟩, []⟩).2.1 (by decide),
   (setMouseLocked_requests true
      ⟨⟨false, false, false, false, false, true⟩, ⟨640, 480⟩, []⟩).1 rfl⟩

/-- C17: once `MouseLocked` is set, no run of steps (member function calls and
host notifications, `setMouseLocked(false)` included) clears it, so at the end
`setMouseLocked(true)` sends no lock request; in particular after a granted
lock followed by `setMouseLocked(false)`, which sends the unlock, and anything
else. -/
theorem MouseLocked_never_cleared (steps : List Step) (s s1 : Session)
    (hr : Session.run steps s = some s1) :
    (s.app.flags.has .MouseLocked = true →
      s1.app.flags.has .MouseLocked = true ∧ setMouseLocked true s1.app = s1.app) ∧
    (∀ app0 : NaClApplication, s.app = setMouseLocked false (mouseLockCallback app0) →
      s.app.calls = app0.calls ++ [.UnlockMouse] ∧
      s1.app.flags.has .MouseLocked = true ∧ setMouseLocked true s1.app = s1.app) := by
  have key : s.app.flags.has .MouseLocked = true →
      s1.app.flags.has .MouseLocked = true ∧ setMouseLocked true s1.app = s1.app := by
    intro hl
    have h1 := Session.run_stays_locked steps s s1 hl hr
    exact ⟨h1, by simp [setMouseLocked, isMouseLocked, h1]⟩
  refine ⟨key, ?_⟩
  intro app0 hs
  have hm : (mouseLockCallback app0).flags.has .MouseLocked = true := by
    cases hf : app0.flags
    simp [mouseLockCallback, NaClApplication.setFlag, Flags.set, Flags.has, hf]
  have hu : setMouseLocked false (mouseLockCallback app0) =
      (mouseLockCallback app0).call .UnlockMouse := by
    simp [setMouseLocked, isMouseLocked, hm]
  have hl : s.app.flags.has .MouseLocked = true := by
    rw [hs, hu]
    exact hm
  refine ⟨?_, key hl⟩
  rw [hs, hu]
  rfl

/-- Witness for C17: lock granted, `setMouseLocked(false)`, a view change,
then `setMouseLocked(true)` sends nothing. -/
theorem MouseLocked_never_cleared_witness :
    (⟨⟨false, false, false, false, false, true⟩, ⟨640, 480⟩,
        [.UnlockMouse, .drawEvent]⟩ : NaClApplication).flags.has .MouseLocked = true ∧
    setMouseLocked true
        ⟨⟨false, false, false, false, false, true⟩, ⟨640, 480⟩, [.UnlockMouse, .drawEvent]⟩ =
      ⟨⟨false, false, false, false, false, true⟩, ⟨640, 480⟩, [.UnlockMouse, .drawEvent]⟩ :=
  ((MouseLocked_never_cleared
      [.notify (.DidChangeView ⟨false, fun _ => true⟩ Hooks.idle ⟨⟨0, 0, 640, 480⟩⟩)]
      ⟨⟨⟨false, false, false, false, false, true⟩, ⟨640, 480⟩, [.UnlockMouse]⟩, 0⟩
      ⟨⟨⟨false, false, false, false, false, true⟩, ⟨640, 480⟩,
        [.UnlockMouse, .drawEvent]⟩, 0⟩ rfl).2
    ⟨⟨false, false, false, false, false, false⟩, ⟨640, 480⟩, []⟩ rfl).2

/-! ## The redraw raised when a fullscreen switch settles -/

theorem invoke_keepsFlags (host : Host) (c : Call) (body : Hook) (a : NaClApplication)
    (hk : body.keepsFlags host) : (invoke host c body a).flags = a.flags := by
  rw [invoke, hk false (a.call c)]
  rfl

theorem invoke_stays_set (host : Host) (c : Call) (body : Hook) (a : NaClApplication)
    {f : Flag} (hf : f ≠ Flag.WillBeFullscreen) (h : a.flags.has f = true) :
    (invoke host c body a).flags.has f = true :=
  (invoke_effect host c body a).stays_set f hf h

theorem DidChangeView.process_count_draw (host : Host) (hooks : Hooks) (view : View)
    (a : NaClApplication) :
    (DidChangeView.process host hooks view a).calls.count .drawEvent =
      a.calls.count .drawEvent + 1 := by
  obtain ⟨pre, post, e, np, hm⟩ := DidChangeView.process_calls host hooks view a
  rw [e, List.count_append, List.count_append, List.count_cons_self,
    List.count_eq_zero.mpr np, List.count_eq_zero.mpr (fromApi_ne_draw hm)]

theorem DidChangeView.process_redraw (host : Host) (hooks : Hooks) (view : View)
    (a : NaClApplication) (hr : a.flags.has .Redraw = true) :
    (DidChangeView.process host hooks view a).flags.has .Redraw = true := by
  by_cases c1 : a.viewportSize = ⟨view.GetRect.width, view.GetRect.height⟩
  · cases c2 : a.flags.has .ViewportUpdated
    · rw [DidChangeView.process_plain host hooks view a c1 c2]
      exact invoke_stays_set host _ _ _ (by decide) hr
    · rw [DidChangeView.process_updated host hooks view a c1 c2]
      exact invoke_stays_set host _ _ _ (by decide)
        (invoke_stays_set host _ _ _ (by decide) hr)
  · rw [DidChangeView.process_resized host hooks view a c1]
    exact invoke_stays_set host _ _ _ (by decide)
      (invoke_stays_set host _ _ _ (by decide) hr)

/-- With hooks that leave the flags alone, lines 127-142 change no flag but
`ViewportUpdated`, which ends clear. -/
theorem DidChangeView.process_flags (host : Host) (hooks : Hooks) (view : View)
    (a : NaClApplication) (hv : ∀ sz, (hooks.viewportEvent sz).keepsFlags host)
    (hd : hooks.drawEvent.keepsFlags host) :
    (DidChangeView.process host hooks view a).flags =
      { a.flags with ViewportUpdated := false } := by
  by_cases c1 : a.viewportSize = ⟨view.GetRect.width, view.GetRect.height⟩
  · cases c2 : a.flags.has .ViewportUpdated
    · rw [DidChangeView.process_plain host hooks view a c1 c2, invoke_keepsFlags _ _ _ _ hd]
      cases hf : a.flags
      rw [hf] at c2
      simp only [Flags.has] at c2
      simp [c2]
    · rw [DidChangeView.process_updated host hooks view a c1 c2,
        invoke_keepsFlags _ _ _ _ hd, invoke_keepsFlags _ _ _ _ (hv _)]
  · rw [DidChangeView.process_resized host hooks view a c1,
      invoke_keepsFlags _ _ _ _ hd, invoke_keepsFlags _ _ _ _ (hv _)]

/-- The view change that settles a fullscreen switch goes through lines
119-120 and then 127-142. -/
theorem DidChangeView_of_settle (host : Host) (hooks : Hooks) (view : View)
    (app : NaClApplication) (hp : app.flags.has .FullscreenSwitchInProgress = true)
    (hh : host.IsFullscreen = app.flags.has .WillBeFullscreen) :
    DidChangeView host hooks view app =
      DidChangeView.process host hooks view
        { app with flags := { app.flags with FullscreenSwitchInProgress := false,
                                             Redraw := true } } := by
  simp [DidChangeView, hp, isFullscreen, hh, NaClApplication.clearFlag,
    NaClApplication.setFlag, Flags.clear, Flags.set]

/-- C18: the view change that settles a fullscreen switch invokes the draw
hook once and returns with `Redraw` still set, so the next swap completion
invokes the draw hook again.  With hooks that leave the flags alone,
`FullscreenSwitchInProgress` is clear on return (the flags are the old ones
with that bit and `ViewportUpdated` cleared and `Redraw` set), and the next
accepted input event with no swap outstanding also invokes the draw hook
again. -/
theorem DidChangeView_settle_redraw_pending (host : Host) (hooks : Hooks) (view : View)
    (app : NaClApplication) (hp : app.flags.has .FullscreenSwitchInProgress = true)
    (hh : host.IsFullscreen = app.flags.has .WillBeFullscreen) :
    (DidChangeView host hooks view app).flags.has .Redraw = true ∧
    (DidChangeView host hooks view app).calls.count .drawEvent =
      app.calls.count .drawEvent + 1 ∧
    (∀ (host₂ : Host) (hooks₂ : Hooks),
      (swapCallback host₂ hooks₂ (DidChangeView host hooks view app)).calls.count .drawEvent =
        (DidChangeView host hooks view app).calls.count .drawEvent + 1) ∧
    ((∀ sz, (hooks.viewportEvent sz).keepsFlags host) → hooks.drawEvent.keepsFlags host →
      (DidChangeView host hooks view app).flags =
        { app.flags with FullscreenSwitchInProgress := false, Redraw := true,
                         ViewportUpdated := false } ∧
      ∀ (host₂ : Host) (hooks₂ : Hooks) (event : InputEvent) (c : Call) (body : Hook),
        dispatchTable hooks₂ event = some (c, body) →
        (dispatch host₂ c body (DidChangeView host hooks view app)).2 = true →
        app.flags.has .SwapInProgress = false →
        (dispatch host₂ c body (DidChangeView host hooks view app)).1.flags.has
          .SwapInProgress = false →
        (HandleInputEvent host₂ hooks₂ event (DidChangeView host hooks view app)).1 =
          .returned true ∧
        (HandleInputEvent host₂ hooks₂ event
            (DidChangeView host hooks view app)).2.calls.count .drawEvent =
          (DidChangeView host hooks view app).calls.count .drawEvent + 1) := by
  have hr : (DidChangeView host hooks view app).flags.has .Redraw = true := by
    rw [DidChangeView_of_settle host hooks view app hp hh]
    exact DidChangeView.process_redraw host hooks view _ rfl
  refine ⟨hr, ?_, ?_, ?_⟩
  · rw [DidChangeView_of_settle host hooks view app hp hh,
      DidChangeView.process_count_draw]
  · intro host₂ hooks₂
    rw [swapCallback_of_set host₂ hooks₂ _ hr]
    exact count_draw_invoke _ _ _
  · intro hv hd
    have hfl : (DidChangeView host hooks view app).flags =
        { app.flags with FullscreenSwitchInProgress := false, Redraw := true,
                         ViewportUpdated := false } := by
      rw [DidChangeView_of_settle host hooks view app hp hh,
        DidChangeView.process_flags host hooks view _ hv hd]
    refine ⟨hfl, ?_⟩
    intro host₂ hooks₂ event c body ht hacc hs0 hs1
    have hp2 : (DidChangeView host hooks view app).flags.has
        .FullscreenSwitchInProgress = false := by
      rw [hfl]
      rfl
    have hs2 : (DidChangeView host hooks view app).flags.has .SwapInProgress = false := by
      rw [hfl]
      exact hs0
    have hr1 : (dispatch host₂ c body (DidChangeView host hooks view app)).1.flags.has
        .Redraw = true :=
      (dispatch_effect host₂ c body _).stays_set _ (by decide) hr
    rw [HandleInputEvent_of_some host₂ hooks₂ event _ hp2 ht,
      HandleInputEvent.afterHook_draw _ _ _ _ hacc (hs1.trans hs2.symm) hr1 hs1]
    refine ⟨rfl, ?_⟩
    rw [count_draw_invoke]
    simpa [NaClApplication.clearFlag] using
      dispatch_count_draw host₂ c body _ (dispatchTable_isInputHook ht)

/-- Witness for C18: a switch to fullscreen settles, then the swap completion
draws a second time. -/
theorem DidChangeView_settle_redraw_pending_witness :
    (DidChangeView ⟨true, fun _ => true⟩ Hooks.idle ⟨⟨0, 0, 640, 480⟩⟩
        ⟨⟨false, true, false, true, true, false⟩, ⟨640, 480⟩, []⟩).flags.has .Redraw = true ∧
    (swapCallback ⟨true, fun _ => true⟩ Hooks.idle
        (DidChangeView ⟨true, fun _ => true⟩ Hooks.idle ⟨⟨0, 0, 640, 480⟩⟩
          ⟨⟨false, true, false, true, true, false⟩, ⟨640, 480⟩, []⟩)).calls.count .drawEvent =
      (DidChangeView ⟨true, fun _ => true⟩ Hooks.idle ⟨⟨0, 0, 640, 480⟩⟩
        ⟨⟨false, true, false, true, true, false⟩, ⟨640, 480⟩, []⟩).calls.count .drawEvent + 1 :=
  ⟨(DidChangeView_settle_redraw_pending ⟨true, fun _ => true⟩ Hooks.idle ⟨⟨0, 0, 640, 480⟩⟩
      ⟨⟨false, true, false, true, true, false⟩, ⟨640, 480⟩, []⟩ rfl rfl).1,
   (DidChangeView_settle_redraw_pending ⟨true, fun _ => true⟩ Hooks.idle ⟨⟨0, 0, 640, 480⟩⟩
      ⟨⟨false, true, false, true, true, false⟩, ⟨640, 480⟩, []⟩ rfl rfl).2.2.1
      ⟨true, fun _ => true⟩ Hooks.idle⟩

/-! ## `WillBeFullscreen` outside a switch -/

theorem agreeButTarget_iff (a b : NaClApplication) :
    AgreeButTarget a b ↔
      a.viewportSize = b.viewportSize ∧ a.calls = b.calls ∧
      a.flags.ViewportUpdated = b.flags.ViewportUpdated ∧
      a.flags.SwapInProgress = b.flags.SwapInProgress ∧
      a.flags.Redraw = b.flags.Redraw ∧
      a.flags.FullscreenSwitchInProgress = b.flags.FullscreenSwitchInProgress ∧
      a.flags.MouseLocked = b.flags.MouseLocked ∧
      (a.flags.FullscreenSwitchInProgress = true →
        a.flags.WillBeFullscreen = b.flags.WillBeFullscreen) := by
  constructor
  · intro h
    exact ⟨h.same_size, h.same_calls, h.same_flags .ViewportUpdated (by decide),
      h.same_flags .SwapInProgress (by decide), h.same_flags .Redraw (by decide),
      h.same_flags .FullscreenSwitchInProgress (by decide),
      h.same_flags .MouseLocked (by decide), h.same_target⟩
  · rintro ⟨h1, h2, h3, h4, h5, h6, h7, h8⟩
    refine ⟨h1, h2, ?_, h8⟩
    intro f hf
    cases f <;> first | exact h3 | exact h4 | exact h5 | exact h6 | exact h7 | exact absurd rfl hf

/-- Sessions that agree but for the target are the same session up to that
one bit. -/
theorem AgreeButTarget.shape {a b : NaClApplication} (h : AgreeButTarget a b) :
    ∃ w, b = { a with flags := { a.flags with WillBeFullscreen := w } } ∧
      (a.flags.FullscreenSwitchInProgress = true → a.flags.WillBeFullscreen = w) := by
  obtain ⟨h1, h2, h3, h4, h5, h6, h7, h8⟩ := (agreeButTarget_iff a b).mp h
  obtain ⟨⟨vu, sip, rd, fsip, wbf, ml⟩, vs, calls⟩ := a
  obtain ⟨⟨vu2, sip2, rd2, fsip2, wbf2, ml2⟩, vs2, calls2⟩ := b
  simp only at h1 h2 h3 h4 h5 h6 h7 h8
  subst h1 h2 h3 h4 h5 h6 h7
  exact ⟨wbf2, rfl, h8⟩

theorem AgreeButTarget.of_eq (a : NaClApplication) : AgreeButTarget a a :=
  ⟨rfl, rfl, fun _ _ => rfl, fun _ => rfl⟩

theorem AgreeButTarget.logged {a b : NaClApplication} (h : AgreeButTarget a b) (c : Call) :
    AgreeButTarget (a.call c) (b.call c) := by
  obtain ⟨w, rfl, hw⟩ := h.shape
  rw [agreeButTarget_iff]
  simpa [NaClApplication.call] using hw

theorem setFullscreen_agree (host : Host) (enabled : Bool) {a b : NaClApplication}
    (h : AgreeButTarget a b) :
    (setFullscreen host enabled a).1 = (setFullscreen host enabled b).1 ∧
      AgreeButTarget (setFullscreen host enabled a).2 (setFullscreen host enabled b).2 := by
  obtain ⟨w, rfl, hw⟩ := h.shape
  obtain ⟨⟨vu, sip, rd, fsip, wbf, ml⟩, vs, calls⟩ := a
  rw [agreeButTarget_iff]
  cases hf : host.IsFullscreen <;> cases hs : host.SetFullscreen enabled <;>
    cases enabled <;> cases fsip <;> cases wbf <;> cases w <;>
    simp [setFullscreen, isFullscreen, hf, Flags.has, Flags.set, Flags.clear,
      NaClApplication.call, NaClApplication.setFlag, NaClApplication.clearFlag] at hs hw ⊢ <;>
    simp [hs]

theorem swapBuffers_agree {a b : NaClApplication} (h : AgreeButTarget a b) :
    AgreeButTarget (swapBuffers a) (swapBuffers b) := by
  obtain ⟨w, rfl, hw⟩ := h.shape
  obtain ⟨⟨vu, sip, rd, fsip, wbf, ml⟩, vs, calls⟩ := a
  rw [agreeButTarget_iff]
  cases sip <;>
    simpa [swapBuffers, Flags.has, Flags.set, NaClApplication.call,
      NaClApplication.setFlag] using hw

theorem redraw_agree {a b : NaClApplication} (h : AgreeButTarget a b) :
    AgreeButTarget (redraw a) (redraw b) := by
  obtain ⟨w, rfl, hw⟩ := h.shape
  rw [agreeButTarget_iff]
  simpa [redraw, Flags.set, NaClApplication.setFlag] using hw

theorem setMouseLocked_agree (enabled : Bool) {a b : NaClApplication}
    (h : AgreeButTarget a b) :
    AgreeButTarget (setMouseLocked enabled a) (setMouseLocked enabled b) := by
  obtain ⟨w, rfl, hw⟩ := h.shape
  obtain ⟨⟨vu, sip, rd, fsip, wbf, ml⟩, vs, calls⟩ := a
  rw [agreeButTarget_iff]
  cases enabled <;> cases ml <;>
    simpa [setMouseLocked, isMouseLocked, Flags.has, NaClApplication.call] using hw

/-- A hook body cannot tell two sessions apart that agree but for the target:
same accepted bit, and the sessions it leaves agree but for the target. -/
theorem Hook.run_agree (host : Host) (body : Hook) :
    ∀ (acc : Bool) (a b : NaClApplication), AgreeButTarget a b →
      (body.run host acc a).2 = (body.run host acc b).2 ∧
        AgreeButTarget (body.run host acc a).1 (body.run host acc b).1 := by
  induction body with
  | done => intro acc a b h; exact ⟨rfl, h⟩
  | isFullscreen k ih => intro acc a b h; exact ih _ acc a b h
  | setFullscreen enabled k ih =>
      intro acc a b h
      have hs := setFullscreen_agree host enabled h
      simp only [Hook.run]
      rw [← hs.1]
      exact ih _ acc _ _ hs.2
  | swapBuffers k ih => intro acc a b h; exact ih acc _ _ (swapBuffers_agree h)
  | redraw k ih => intro acc a b h; exact ih acc _ _ (redraw_agree h)
  | isMouseLocked k ih =>
      intro acc a b h
      have hm : Magnum.Platform.isMouseLocked a = Magnum.Platform.isMouseLocked b :=
        h.same_flags .MouseLocked (by decide)
      simp only [Hook.run]
      rw [← hm]
      exact ih _ acc a b h
  | setMouseLocked enabled k ih =>
      intro acc a b h; exact ih acc _ _ (setMouseLocked_agree enabled h)
  | setAccepted accepted k ih => intro acc a b h; exact ih accepted a b h
  | isAccepted k ih => intro acc a b h; exact ih _ acc a b h

theorem invoke_agree (host : Host) (c : Call) (body : Hook) {a b : NaClApplication}
    (h : AgreeButTarget a b) :
    AgreeButTarget (invoke host c body a) (invoke host c body b) :=
  (Hook.run_agree host body false _ _ (h.logged c)).2

theorem dispatch_agree (host : Host) (c : Call) (body : Hook) {a b : NaClApplication}
    (h : AgreeButTarget a b) :
    (dispatch host c body a).2 = (dispatch host c body b).2 ∧
      AgreeButTarget (dispatch host c body a).1 (dispatch host c body b).1 :=
  Hook.run_agree host body false _ _ (h.logged c)

theorem DidChangeView.process_agree (host : Host) (hooks : Hooks) (view : View)
    {a b : NaClApplication} (h : AgreeButTarget a b) :
    AgreeButTarget (DidChangeView.process host hooks view a)
      (DidChangeView.process host hooks view b) := by
  have hsz := h.same_size
  have hvu : a.flags.has .ViewportUpdated = b.flags.has .ViewportUpdated :=
    h.same_flags .ViewportUpdated (by decide)
  by_cases c1 : a.viewportSize = ⟨view.GetRect.width, view.GetRect.height⟩
  · cases c2 : a.flags.has .ViewportUpdated
    · rw [DidChangeView.process_plain host hooks view a c1 c2,
        DidChangeView.process_plain host hooks view b (hsz ▸ c1) (hvu ▸ c2)]
      exact invoke_agree host _ _ h
    · rw [DidChangeView.process_updated host hooks view a c1 c2,
        DidChangeView.process_updated host hooks view b (hsz ▸ c1) (hvu ▸ c2)]
      refine invoke_agree host _ _ (invoke_agree host _ _ ?_)
      obtain ⟨w, rfl, hw⟩ := h.shape
      rw [agreeButTarget_iff]
      simpa using hw
  · rw [DidChangeView.process_resized host hooks view a c1,
      DidChangeView.process_resized host hooks view b (hsz ▸ c1)]
    refine invoke_agree host _ _ (invoke_agree host _ _ ?_)
    obtain ⟨w, rfl, hw⟩ := h.shape
    rw [agreeButTarget_iff]
    simpa using hw

theorem DidChangeView_agree (host : Host) (hooks : Hooks) (view : View)
    {a b : NaClApplication} (h : AgreeButTarget a b) :
    AgreeButTarget (DidChangeView host hooks view a) (DidChangeView host hooks view b) := by
  have hf : a.flags.has .FullscreenSwitchInProgress = b.flags.has .FullscreenSwitchInProgress :=
    h.same_flags .FullscreenSwitchInProgress (by decide)
  cases hp : a.flags.has .FullscreenSwitchInProgress
  · have hd : ∀ x : NaClApplication, x.flags.has .FullscreenSwitchInProgress = false →
        DidChangeView host hooks view x = DidChangeView.process host hooks view x := by
      intro x hx
      simp [DidChangeView, hx]
    rw [hd a hp, hd b (hf ▸ hp)]
    exact DidChangeView.process_agree host hooks view h
  · have hw : a.flags.has .WillBeFullscreen = b.flags.has .WillBeFullscreen :=
      h.same_target hp
    by_cases hh : host.IsFullscreen = a.flags.has .WillBeFullscreen
    · rw [DidChangeView_of_settle host hooks view a hp hh,
        DidChangeView_of_settle host hooks view b (hf ▸ hp) (hw ▸ hh)]
      refine DidChangeView.process_agree host hooks view ?_
      obtain ⟨w, rfl, _⟩ := h.shape
      rw [agreeButTarget_iff]
      simp
    · rw [DidChangeView_pending_eq host hooks view a hp hh,
        DidChangeView_pending_eq host hooks view b (hf ▸ hp) (hw ▸ hh)]
      exact h

theorem HandleInputEvent.afterHook_agree (host : Host) (hooks : Hooks) {t t₂ : Flags}
    {r r₂ : NaClApplication × Bool} (ht : t.has .SwapInProgress = t₂.has .SwapInProgress)
    (hacc : r.2 = r₂.2) (h : AgreeButTarget r.1 r₂.1) :
    (HandleInputEvent.afterHook host hooks t r).1 =
        (HandleInputEvent.afterHook host hooks t₂ r₂).1 ∧
      AgreeButTarget (HandleInputEvent.afterHook host hooks t r).2
        (HandleInputEvent.afterHook host hooks t₂ r₂).2 := by
  have hsip : r.1.flags.has .SwapInProgress = r₂.1.flags.has .SwapInProgress :=
    h.same_flags .SwapInProgress (by decide)
  have hrd : r.1.flags.has .Redraw = r₂.1.flags.has .Redraw :=
    h.same_flags .Redraw (by decide)
  cases ha : r.2
  · rw [HandleInputEvent.afterHook_unaccepted _ _ _ _ ha,
      HandleInputEvent.afterHook_unaccepted _ _ _ _ (hacc ▸ ha)]
    exact ⟨rfl, h⟩
  · by_cases hs : r.1.flags.has .SwapInProgress = t.has .SwapInProgress
    · by_cases hd : r.1.flags.has .Redraw = true ∧ r.1.flags.has .SwapInProgress = false
      · rw [HandleInputEvent.afterHook_draw _ _ _ _ ha hs hd.1 hd.2,
          HandleInputEvent.afterHook_draw _ _ _ _ (hacc ▸ ha) (hsip ▸ ht ▸ hs)
            (hrd ▸ hd.1) (hsip ▸ hd.2)]
        refine ⟨rfl, invoke_agree host _ _ ?_⟩
        obtain ⟨w, e, hw⟩ := h.shape
        rw [e, agreeButTarget_iff]
        simpa [NaClApplication.clearFlag, Flags.clear] using hw
      · rw [HandleInputEvent.afterHook_plain _ _ _ _ ha hs hd,
          HandleInputEvent.afterHook_plain _ _ _ _ (hacc ▸ ha) (hsip ▸ ht ▸ hs)
            (hrd ▸ hsip ▸ hd)]
        exact ⟨rfl, h⟩
    · rw [HandleInputEvent.afterHook_failed _ _ _ _ ha hs,
        HandleInputEvent.afterHook_failed _ _ _ _ (hacc ▸ ha) (hsip ▸ ht ▸ hs)]
      exact ⟨rfl, h⟩

theorem HandleInputEvent_agree (host : Host) (hooks : Hooks) (event : InputEvent)
    {a b : NaClApplication} (h : AgreeButTarget a b) :
    (HandleInputEvent host hooks event a).1 = (HandleInputEvent host hooks event b).1 ∧
      AgreeButTarget (HandleInputEvent host hooks event a).2
        (HandleInputEvent host hooks event b).2 := by
  have hf : a.flags.has .FullscreenSwitchInProgress = b.flags.has .FullscreenSwitchInProgress :=
    h.same_flags .FullscreenSwitchInProgress (by decide)
  cases hp : a.flags.has .FullscreenSwitchInProgress
  · rw [HandleInputEvent_of_table host hooks event a hp,
      HandleInputEvent_of_table host hooks event b (hf ▸ hp)]
    cases ht : dispatchTable hooks event with
    | none => exact ⟨rfl, h⟩
    | some cb =>
        obtain ⟨c, body⟩ := cb
        have hd := dispatch_agree host c body h
        exact HandleInputEvent.afterHook_agree host hooks
          (h.same_flags .SwapInProgress (by decide)) hd.1 hd.2
  · have hd : ∀ x : NaClApplication, x.flags.has .FullscreenSwitchInProgress = true →
        HandleInputEvent host hooks event x = (.returned false, x) := by
      intro x hx
      simp [HandleInputEvent, hx]
    rw [hd a hp, hd b (hf ▸ hp)]
    exact ⟨rfl, h⟩

theorem swapCallback_agree (host : Host) (hooks : Hooks) {a b : NaClApplication}
    (h : AgreeButTarget a b) :
    AgreeButTarget (swapCallback host hooks a) (swapCallback host hooks b) := by
  have hrd : a.flags.has .Redraw = b.flags.has .Redraw := h.same_flags .Redraw (by decide)
  obtain ⟨w, e, hw⟩ := h.shape
  cases hr : a.flags.has .Redraw
  · rw [swapCallback_of_clear host hooks a hr, swapCallback_of_clear host hooks b (hrd ▸ hr),
      e, agreeButTarget_iff]
    simpa using hw
  · rw [swapCallback_of_set host hooks a hr, swapCallback_of_set host hooks b (hrd ▸ hr)]
    refine invoke_agree host _ _ ?_
    rw [e, agreeButTarget_iff]
    simpa using hw

theorem agreeButTarget_withTarget (a : NaClApplication) (w : Bool)
    (hp : a.flags.has .FullscreenSwitchInProgress = false) :
    AgreeButTarget a (a.withTarget w) := by
  rw [agreeButTarget_iff]
  have : a.flags.FullscreenSwitchInProgress = false := by
    cases hf : a.flags
    rw [hf] at hp
    exact hp
  simp [NaClApplication.withTarget, this]

/-- C20: take a session with no fullscreen switch in progress and the same
session with its `WillBeFullscreen` bit set to anything.  Every operation,
given the same arguments, host answers and hooks, returns the same value on
both and leaves sessions with the same log (host requests and hook calls), the
same viewport size and the same flags other than `WillBeFullscreen`, and the
same `WillBeFullscreen` too whenever a switch is in progress afterwards.  The
bit itself is not cleared by the view change that settles a switch when the
hooks leave the flags alone. -/
theorem WillBeFullscreen_inert (a : NaClApplication) (w : Bool)
    (hp : a.flags.has .FullscreenSwitchInProgress = false) :
    (∀ (host : Host) (enabled : Bool),
      (setFullscreen host enabled a).1 = (setFullscreen host enabled (a.withTarget w)).1 ∧
      AgreeButTarget (setFullscreen host enabled a).2
        (setFullscreen host enabled (a.withTarget w)).2 ∧
      ((setFullscreen host enabled a).2.flags.has .FullscreenSwitchInProgress = true →
        (setFullscreen host enabled a).2 = (setFullscreen host enabled (a.withTarget w)).2)) ∧
    (∀ (host : Host) (hooks : Hooks) (view : View),
      AgreeButTarget (DidChangeView host hooks view a)
        (DidChangeView host hooks view (a.withTarget w))) ∧
    (∀ (host : Host) (hooks : Hooks) (event : InputEvent),
      (HandleInputEvent host hooks event a).1 =
        (HandleInputEvent host hooks event (a.withTarget w)).1 ∧
      AgreeButTarget (HandleInputEvent host hooks event a).2
        (HandleInputEvent host hooks event (a.withTarget w)).2) ∧
    AgreeButTarget (swapBuffers a) (swapBuffers (a.withTarget w)) ∧
    (∀ (host : Host) (hooks : Hooks),
      AgreeButTarget (swapCallback host hooks a) (swapCallback host hooks (a.withTarget w))) ∧
    (∀ enabled : Bool,
      AgreeButTarget (setMouseLocked enabled a) (setMouseLocked enabled (a.withTarget w))) ∧
    (∀ (host : Host) (hooks : Hooks) (view : View) (app : NaClApplication),
      app.flags.has .FullscreenSwitchInProgress = true →
      host.IsFullscreen = app.flags.has .WillBeFullscreen →
      (∀ sz, (hooks.viewportEvent sz).keepsFlags host) → hooks.drawEvent.keepsFlags host →
      (DidChangeView host hooks view app).flags.has .FullscreenSwitchInProgress = false ∧
      (DidChangeView host hooks view app).flags.has .WillBeFullscreen =
        app.flags.has .WillBeFullscreen) := by
  have h := agreeButTarget_withTarget a w hp
  refine ⟨?_, fun host hooks view => DidChangeView_agree host hooks view h,
    fun host hooks event => HandleInputEvent_agree host hooks event h,
    swapBuffers_agree h, fun host hooks => swapCallback_agree host hooks h,
    fun enabled => setMouseLocked_agree enabled h, ?_⟩
  · intro host enabled
    have hs := setFullscreen_agree host enabled h
    refine ⟨hs.1, hs.2, ?_⟩
    intro hf
    obtain ⟨w₂, e, hw⟩ := hs.2.shape
    rw [e]
    have hf2 : (setFullscreen host enabled a).2.flags.FullscreenSwitchInProgress = true := by
      cases hfl : (setFullscreen host enabled a).2.flags
      rw [hfl] at hf
      exact hf
    rw [← hw hf2]
  · intro host hooks view app hp2 hh hv hd
    rw [DidChangeView_of_settle host hooks view app hp2 hh,
      DidChangeView.process_flags host hooks view _ hv hd]
    exact ⟨rfl, rfl⟩

/-- Witness for C20: a windowed session whose stale target bit is set or
clear answers `setFullscreen(true)` and a key press the same way. -/
theorem WillBeFullscreen_inert_witness :
    (setFullscreen ⟨false, fun _ => true⟩ true
        ⟨⟨false, false, false, false, false, false⟩, ⟨640, 480⟩, []⟩).2 =
      (setFullscreen ⟨false, fun _ => true⟩ true
        (NaClApplication.withTarget
          ⟨⟨false, false, false, false, false, false⟩, ⟨640, 480⟩, []⟩ true)).2 ∧
    (HandleInputEvent ⟨false, fun _ => true⟩ Hooks.idle ⟨.KEYDOWN, 65, 0, 0, ⟨0, 0⟩, ⟨0, 0⟩⟩
        ⟨⟨false, false, false, false, false, false⟩, ⟨640, 480⟩, []⟩).1 =
      (HandleInputEvent ⟨false, fun _ => true⟩ Hooks.idle ⟨.KEYDOWN, 65, 0, 0, ⟨0, 0⟩, ⟨0, 0⟩⟩
        (NaClApplication.withTarget
          ⟨⟨false, false, false, false, false, false⟩, ⟨640, 480⟩, []⟩ true)).1 :=
  ⟨((WillBeFullscreen_inert ⟨⟨false, false, false, false, false, false⟩, ⟨640, 480⟩, []⟩
      true rfl).1 ⟨false, fun _ => true⟩ true).2.2 rfl,
   ((WillBeFullscreen_inert ⟨⟨false, false, false, false, false, false⟩, ⟨640, 480⟩, []⟩
      true rfl).2.2.1 ⟨false, fun _ => true⟩ Hooks.idle
        ⟨.KEYDOWN, 65, 0, 0, ⟨0, 0⟩, ⟨0, 0⟩⟩).1⟩

/-! ## The redraw request across input events and view changes -/

theorem invoke_redraw_eq (host : Host) (c : Call) (body : Hook) (a : NaClApplication)
    (hn : body.neverRedraws) :
    (invoke host c body a).flags.has .Redraw = a.flags.has .Redraw := by
  rw [invoke, Hook.run_neverRedraws host body false _ hn]
  rfl

/-- Lines 127-142 leave set every flag that was set, `ViewportUpdated` and
`WillBeFullscreen` apart. -/
theorem DidChangeView.process_stays_set (host : Host) (hooks : Hooks) (view : View)
    (a : NaClApplication) {f : Flag} (hf : f ≠ Flag.WillBeFullscreen)
    (hv : f ≠ Flag.ViewportUpdated) (h : a.flags.has f = true) :
    (DidChangeView.process host hooks view a).flags.has f = true := by
  have hx : ({ a.flags with ViewportUpdated := false } : Flags).has f = true := by
    cases f <;> first | exact h | exact absurd rfl hv
  by_cases c1 : a.viewportSize = ⟨view.GetRect.width, view.GetRect.height⟩
  · cases c2 : a.flags.has .ViewportUpdated
    · rw [DidChangeView.process_plain host hooks view a c1 c2]
      exact invoke_stays_set host _ _ _ hf h
    · rw [DidChangeView.process_updated host hooks view a c1 c2]
      exact invoke_stays_set host _ _ _ hf (invoke_stays_set host _ _ _ hf hx)
  · rw [DidChangeView.process_resized host hooks view a c1]
    exact invoke_stays_set host _ _ _ hf (invoke_stays_set host _ _ _ hf hx)

/-- With hooks that never call `redraw()`, lines 127-142 leave `Redraw` as it
was. -/
theorem DidChangeView.process_redraw_eq (host : Host) (hooks : Hooks) (view : View)
    (a : NaClApplication) (hn : hooks.neverRedraw) :
    (DidChangeView.process host hooks view a).flags.has .Redraw = a.flags.has .Redraw := by
  by_cases c1 : a.viewportSize = ⟨view.GetRect.width, view.GetRect.height⟩
  · cases c2 : a.flags.has .ViewportUpdated
    · rw [DidChangeView.process_plain host hooks view a c1 c2,
        invoke_redraw_eq _ _ _ _ hn.2.1]
    · rw [DidChangeView.process_updated host hooks view a c1 c2,
        invoke_redraw_eq _ _ _ _ hn.2.1, invoke_redraw_eq _ _ _ _ (hn.1 _)]
      rfl
  · rw [DidChangeView.process_resized host hooks view a c1,
      invoke_redraw_eq _ _ _ _ hn.2.1, invoke_redraw_eq _ _ _ _ (hn.1 _)]
    rfl

theorem DidChangeView_of_idle (host : Host) (hooks : Hooks) (view : View)
    (app : NaClApplication) (hp : app.flags.has .FullscreenSwitchInProgress = false) :
    DidChangeView host hooks view app = DidChangeView.process host hooks view app := by
  simp [DidChangeView, hp]

/-- A view change draws once if it is a settled one and not at all otherwise. -/
theorem DidChangeView_count_draw (host : Host) (hooks : Hooks) (view : View)
    (app : NaClApplication) :
    (DidChangeView host hooks view app).calls.count .drawEvent =
      app.calls.count .drawEvent +
        (if (Notification.DidChangeView host hooks view).settles app then 1 else 0) := by
  cases hp : app.flags.has .FullscreenSwitchInProgress
  · rw [DidChangeView_of_idle host hooks view app hp, DidChangeView.process_count_draw]
    simp [Notification.settles, hp]
  · by_cases hh : host.IsFullscreen = app.flags.has .WillBeFullscreen
    · rw [DidChangeView_of_settle host hooks view app hp hh,
        DidChangeView.process_count_draw]
      simp [Notification.settles, hp, isFullscreen, hh]
    · rw [DidChangeView_pending_eq host hooks view app hp hh]
      simp [Notification.settles, hp, isFullscreen, hh]

/-- A view change, settled or not, leaves `Redraw` and `SwapInProgress` set
if they were. -/
theorem DidChangeView_stays_set (host : Host) (hooks : Hooks) (view : View)
    (app : NaClApplication) {f : Flag} (hf : f ≠ Flag.WillBeFullscreen)
    (hv : f ≠ Flag.ViewportUpdated) (hq : f ≠ Flag.FullscreenSwitchInProgress)
    (h : app.flags.has f = true) :
    (DidChangeView host hooks view app).flags.has f = true := by
  cases hp : app.flags.has .FullscreenSwitchInProgress
  · rw [DidChangeView_of_idle host hooks view app hp]
    exact DidChangeView.process_stays_set host hooks view app hf hv h
  · by_cases hh : host.IsFullscreen = app.flags.has .WillBeFullscreen
    · rw [DidChangeView_of_settle host hooks view app hp hh]
      refine DidChangeView.process_stays_set host hooks view _ hf hv ?_
      cases f <;> first | exact h | rfl | exact absurd rfl hq
    · rw [DidChangeView_pending_eq host hooks view app hp hh]
      exact h

/-- With `Redraw` clear and hooks that never call `redraw()`, a view change
that does not settle a fullscreen switch leaves `Redraw` clear. -/
theorem DidChangeView_redraw_clear (host : Host) (hooks : Hooks) (view : View)
    (app : NaClApplication) (hn : hooks.neverRedraw)
    (hs : (Notification.DidChangeView host hooks view).settlesSwitch app = false)
    (hr : app.flags.has .Redraw = false) :
    (DidChangeView host hooks view app).flags.has .Redraw = false := by
  cases hp : app.flags.has .FullscreenSwitchInProgress
  · rw [DidChangeView_of_idle host hooks view app hp,
      DidChangeView.process_redraw_eq host hooks view app hn]
    exact hr
  · have hh : host.IsFullscreen ≠ app.flags.has .WillBeFullscreen := by
      intro e
      simp [Notification.settlesSwitch, hp, isFullscreen, e] at hs
    rw [DidChangeView_pending_eq host hooks view app hp hh]
    exact hr

/-- While `Redraw` and `SwapInProgress` are both set, an input event or a view
change, settled or not, is delivered without abort, leaves both flags set, and
invokes the draw hook only if it is a settled view change, then once. -/
theorem deliver_swap_outstanding (n : Notification) (app : NaClApplication)
    (hn : n.isSwapCompletion = false) (hr : app.flags.has .Redraw = true)
    (hs : app.flags.has .SwapInProgress = true) :
    ∃ app1, n.deliver app = some app1 ∧ app1.flags.has .Redraw = true ∧
      app1.flags.has .SwapInProgress = true ∧
      app1.calls.count .drawEvent =
        app.calls.count .drawEvent + (if n.settles app then 1 else 0) := by
  cases n with
  | swapCallback host hooks => simp [Notification.isSwapCompletion] at hn
  | DidChangeView host hooks view =>
      exact ⟨_, rfl,
        DidChangeView_stays_set host hooks view app (by decide) (by decide) (by decide) hr,
        DidChangeView_stays_set host hooks view app (by decide) (by decide) (by decide) hs,
        DidChangeView_count_draw host hooks view app⟩
  | HandleInputEvent host hooks event =>
      obtain ⟨b, a, e, hr1, hs1, hc1⟩ :=
        HandleInputEvent_swap_outstanding host hooks event app hr hs
      refine ⟨a, ?_, hr1, hs1, ?_⟩
      · simp only [Notification.deliver, e]
      · simpa [Notification.settles] using hc1

theorem deliverAll_swap_outstanding (ns : List Notification) :
    ∀ (app : NaClApplication), (∀ n ∈ ns, n.isSwapCompletion = false) →
      app.flags.has .Redraw = true → app.flags.has .SwapInProgress = true →
      ∃ app1, deliverAll ns app = some app1 ∧ app1.flags.has .Redraw = true ∧
        app1.flags.has .SwapInProgress = true ∧
        app1.calls.count .drawEvent =
          app.calls.count .drawEvent + settledViewChanges ns app := by
  induction ns with
  | nil => intro app _ hr hs; exact ⟨app, rfl, hr, hs, rfl⟩
  | cons n ns ih =>
      intro app hall hr hs
      obtain ⟨a, e, hr1, hs1, hc1⟩ :=
        deliver_swap_outstanding n app (hall n (List.mem_cons_self _ _)) hr hs
      obtain ⟨app1, e2, hr2, hs2, hc2⟩ :=
        ih a (fun m hm => hall m (List.mem_cons_of_mem _ hm)) hr1 hs1
      refine ⟨app1, ?_, hr2, hs2, ?_⟩
      · simp only [deliverAll, e]
        exact e2
      · simp only [settledViewChanges, e]
        omega

/-- With `Redraw` clear and hooks that never call `redraw()`, a notification
that does not settle a fullscreen switch leaves `Redraw` clear and invokes the
draw hook only if it is a settled view change, then once. -/
theorem deliver_consumed (n : Notification) (app app1 : NaClApplication)
    (hv : n.settlesSwitch app = false) (hn : n.hooks.neverRedraw)
    (hr : app.flags.has .Redraw = false) (hd : n.deliver app = some app1) :
    app1.flags.has .Redraw = false ∧
      app1.calls.count .drawEvent =
        app.calls.count .drawEvent + (if n.settles app then 1 else 0) := by
  cases n with
  | DidChangeView host hooks view =>
      simp only [Notification.deliver, Option.some.injEq] at hd
      rw [← hd]
      exact ⟨DidChangeView_redraw_clear host hooks view app hn hv hr,
        DidChangeView_count_draw host hooks view app⟩
  | swapCallback host hooks =>
      have h := swapCallback_of_clear host hooks app hr
      simp only [Notification.deliver, Option.some.injEq] at hd
      rw [← hd, h]
      exact ⟨hr, by simp [Notification.settles]⟩
  | HandleInputEvent host hooks event =>
      simp only [Notification.deliver] at hd
      rcases HandleInputEvent_cases host hooks event app with h | ⟨c, body, hc, hb, h⟩
      · rw [h] at hd
        simp only [Option.some.injEq] at hd
        rw [← hd]
        exact ⟨hr, by simp [Notification.settles]⟩
      · have hr1 : (dispatch host c body app).1.flags.has .Redraw = false := by
          rw [dispatch, Hook.run_neverRedraws host body false _ (hb hn)]
          simpa [NaClApplication.call] using hr
        rw [h] at hd
        rcases HandleInputEvent.afterHook_no_redraw host hooks app.flags
          (dispatch host c body app) hr1 with e | e <;> rw [e] at hd
        · simp only [Option.some.injEq] at hd
          rw [← hd]
          exact ⟨hr1, by
            simpa [Notification.settles] using dispatch_count_draw host c body app hc⟩
        · simp at hd

theorem deliverAll_consumed (ns : List Notification) :
    ∀ (app app1 : NaClApplication),
      (∀ n ∈ ns, n.hooks.neverRedraw) → noSwitchSettles ns app = true →
      app.flags.has .Redraw = false → deliverAll ns app = some app1 →
      app1.flags.has .Redraw = false ∧
        app1.calls.count .drawEvent =
          app.calls.count .drawEvent + settledViewChanges ns app := by
  induction ns with
  | nil =>
      intro app app1 _ _ hr hd
      simp only [deliverAll, Option.some.injEq] at hd
      rw [← hd]
      exact ⟨hr, rfl⟩
  | cons n ns ih =>
      intro app app1 hall hq hr hd
      simp only [deliverAll] at hd
      simp only [noSwitchSettles, Bool.and_eq_true, Bool.not_eq_true'] at hq
      cases hn : n.deliver app with
      | none => simp [hn] at hd
      | some a =>
          simp only [hn] at hd hq
          have h1 := deliver_consumed n app a hq.1 (hall n (List.mem_cons_self _ _)) hr hn
          have h2 := ih a app1 (fun m hm => hall m (List.mem_cons_of_mem _ hm)) hq.2 h1.1 hd
          refine ⟨h2.1, ?_⟩
          simp only [settledViewChanges, hn]
          omega

/-- C7, amended to admit the unconditional draw of a settled view change:
from a state with `Redraw` and `SwapInProgress` both set, every sequence of
input events and view changes, settled ones included (any hooks), runs to its
end without abort and with both flags still set, and the draw hook is invoked
in it exactly once per settled view change and never by an input event; the
swap completion that follows invokes the draw hook exactly once; and if
nothing raises `Redraw` anew (no hook calls `redraw()`, no view change settles
a fullscreen switch), `Redraw` is clear after the completion and stays clear,
and later notifications of any kind invoke the draw hook only for settled view
changes, once each. -/
theorem redraw_during_swap_drawn_once (app : NaClApplication)
    (hr : app.flags.has .Redraw = true) (hs : app.flags.has .SwapInProgress = true)
    (before : List Notification) (hb : ∀ n ∈ before, n.isSwapCompletion = false)
    (host : Host) (hooks : Hooks) :
    ∃ app1, deliverAll before app = some app1 ∧
      app1.flags.has .Redraw = true ∧ app1.flags.has .SwapInProgress = true ∧
      app1.calls.count .drawEvent =
        app.calls.count .drawEvent + settledViewChanges before app ∧
      (swapCallback host hooks app1).calls.count .drawEvent = app1.calls.count .drawEvent + 1 ∧
      (hooks.drawEvent.neverRedraws →
        (swapCallback host hooks app1).flags.has .Redraw = false ∧
        ∀ (later : List Notification) (app2 : NaClApplication),
          (∀ n ∈ later, n.hooks.neverRedraw) →
          noSwitchSettles later (swapCallback host hooks app1) = true →
          deliverAll later (swapCallback host hooks app1) = some app2 →
          app2.flags.has .Redraw = false ∧
          app2.calls.count .drawEvent =
            (swapCallback host hooks app1).calls.count .drawEvent +
              settledViewChanges later (swapCallback host hooks app1)) := by
  obtain ⟨app1, e1, hr1, hs1, hc1⟩ := deliverAll_swap_outstanding before app hb hr hs
  have hsp := swapCallback_of_set host hooks app1 hr1
  refine ⟨app1, e1, hr1, hs1, hc1, by rw [hsp]; exact count_draw_invoke _ _ _, ?_⟩
  intro hd
  have hclear : (swapCallback host hooks app1).flags.has .Redraw = false := by
    rw [hsp, invoke_redraw_eq _ _ _ _ hd]
    rfl
  exact ⟨hclear, fun later app2 hall hql hl =>
    deliverAll_consumed later _ app2 hall hql hclear hl⟩

/-- Witness for C7 amended: an accepted key press and a settled view change
while the swap is outstanding (one draw, from the view change), then the
completion. -/
theorem redraw_during_swap_drawn_once_witness :
    ∃ app1, deliverAll
        [.HandleInputEvent ⟨false, fun _ => true⟩
          ⟨fun _ => .done, .swapBuffers .done, fun _ => .setAccepted true .done, fun _ => .done,
            fun _ => .done, fun _ => .done, fun _ => .done⟩
          ⟨.KEYDOWN, 65, 0, 0, ⟨0, 0⟩, ⟨0, 0⟩⟩,
         .DidChangeView ⟨false, fun _ => true⟩ Hooks.idle ⟨⟨0, 0, 800, 600⟩⟩]
        ⟨⟨false, true, true, false, false, false⟩, ⟨640, 480⟩, []⟩ = some app1 ∧
      app1.flags.has .Redraw = true ∧ app1.flags.has .SwapInProgress = true ∧
      app1.calls.count .drawEvent =
        (⟨⟨false, true, true, false, false, false⟩, ⟨640, 480⟩, []⟩ :
          NaClApplication).calls.count .drawEvent +
        settledViewChanges
          [.HandleInputEvent ⟨false, fun _ => true⟩
            ⟨fun _ => .done, .swapBuffers .done, fun _ => .setAccepted true .done,
              fun _ => .done, fun _ => .done, fun _ => .done, fun _ => .done⟩
            ⟨.KEYDOWN, 65, 0, 0, ⟨0, 0⟩, ⟨0, 0⟩⟩,
           .DidChangeView ⟨false, fun _ => true⟩ Hooks.idle ⟨⟨0, 0, 800, 600⟩⟩]
          ⟨⟨false, true, true, false, false, false⟩, ⟨640, 480⟩, []⟩ ∧
      (swapCallback ⟨false, fun _ => true⟩ Hooks.idle app1).calls.count .drawEvent =
        app1.calls.count .drawEvent + 1 ∧
      (Hooks.idle.drawEvent.neverRedraws →
        (swapCallback ⟨false, fun _ => true⟩ Hooks.idle app1).flags.has .Redraw = false ∧
        ∀ (later : List Notification) (app2 : NaClApplication),
          (∀ n ∈ later, n.hooks.neverRedraw) →
          noSwitchSettles later (swapCallback ⟨false, fun _ => true⟩ Hooks.idle app1) = true →
          deliverAll later (swapCallback ⟨false, fun _ => true⟩ Hooks.idle app1) = some app2 →
          app2.flags.has .Redraw = false ∧
          app2.calls.count .drawEvent =
            (swapCallback ⟨false, fun _ => true⟩ Hooks.idle app1).calls.count .drawEvent +
              settledViewChanges later
                (swapCallback ⟨false, fun _ => true⟩ Hooks.idle app1)) :=
  redraw_during_swap_drawn_once
    ⟨⟨false, true, true, false, false, false⟩, ⟨640, 480⟩, []⟩ rfl rfl
    [.HandleInputEvent ⟨false, fun _ => true⟩
      ⟨fun _ => .done, .swapBuffers .done, fun _ => .setAccepted true .done, fun _ => .done,
        fun _ => .done, fun _ => .done, fun _ => .done⟩
      ⟨.KEYDOWN, 65, 0, 0, ⟨0, 0⟩, ⟨0, 0⟩⟩,
     .DidChangeView ⟨false, fun _ => true⟩ Hooks.idle ⟨⟨0, 0, 800, 600⟩⟩]
    (by
      intro n hn
      simp only [List.mem_cons, List.mem_singleton, List.not_mem_nil, or_false] at hn
      rcases hn with h | h <;> rw [h] <;> rfl)
    ⟨false, fun _ => true⟩ Hooks.idle

end Magnum.Platform
